import Mathlib

/-!
# Verification of the gantt timeline engine

A shallow embedding of the engine found in `src/index.js` together with the
bundled build (`date_utils`, `Bar`, `Arrow` and the `Gantt` class).

Modelling conventions:

* JS `Date` values are naive local wall-clock datetimes (the spec excludes
  timezones).  A `Date` is modelled by its seven normalized civil components;
  the `new Date(y, m, d, ...)` constructor is modelled by `newDate`, which
  performs the ECMAScript normalization: the two-digit-year rule
  (0..99 ↦ 1900..1999), month overflow via floor division by 12,
  time-of-day overflow carried into the day count, and day overflow carried
  across month boundaries.  Comparison and subtraction of `Date`s go through
  `toMillis`, the total-milliseconds timeline (day numbering is proleptic
  Gregorian; the epoch offset is irrelevant, only differences and order are
  ever used).
* JS numbers are exact here: `Int` where the program only ever holds
  integers (dates, snap deltas with the stock column widths), `ℚ` for bar
  geometry.
* Machine-level recursion that JS runs unboundedly (`Date` day
  normalization, the dependents worklist loop) is fuel-driven; the callers
  supply fuel that is proved sufficient where the loop terminates, and the
  dependents loop is exactly the function whose non-termination is at issue.
-/

namespace Gantt

/-- Leap-year rule of `date_utils.get_days_in_month`:
`(year % 4 == 0 && year % 100 != 0) || year % 400 == 0`.  (JS `%` and
Euclidean `%` agree on divisibility tests.) -/
def isLeap (y : Int) : Bool :=
  (y % 4 == 0 && y % 100 != 0) || y % 400 == 0

/-- Days in month `m` (0-indexed, as `Date.getMonth`) of year `y`: the table
`[31, 28, ...]` of `date_utils.get_days_in_month` with the February leap
adjustment.  Only `m ∈ [0, 11]` is ever reached; the final 31 keeps the
function total. -/
def daysInMonthYM (y m : Int) : Int :=
  if m = 0 then 31
  else if m = 1 then (if isLeap y then 29 else 28)
  else if m = 2 then 31
  else if m = 3 then 30
  else if m = 4 then 31
  else if m = 5 then 30
  else if m = 6 then 31
  else if m = 7 then 31
  else if m = 8 then 30
  else if m = 9 then 31
  else if m = 10 then 30
  else 31

/-- Days strictly before month `m` (0-indexed) inside year `y`. -/
def daysBeforeMonth (y m : Int) : Int :=
  (if m ≤ 0 then 0
   else if m = 1 then 31
   else if m = 2 then 59
   else if m = 3 then 90
   else if m = 4 then 120
   else if m = 5 then 151
   else if m = 6 then 181
   else if m = 7 then 212
   else if m = 8 then 243
   else if m = 9 then 273
   else if m = 10 then 304
   else 334)
  + (if 2 ≤ m ∧ isLeap y then 1 else 0)

/-- Leap days accumulated strictly before year `y` on the proleptic
Gregorian axis. -/
def leapsBefore (y : Int) : Int :=
  (y - 1) / 4 - (y - 1) / 100 + (y - 1) / 400

/-- Days accumulated strictly before year `y`. -/
def daysBeforeYear (y : Int) : Int :=
  365 * y + leapsBefore y

/-- Day number of the civil date (`y`, `m` 0-indexed, `d`).  Linear in `d`,
so it extends to out-of-range day counts, which is exactly how the `Date`
constructor treats them. -/
def dayNumber (y m d : Int) : Int :=
  daysBeforeYear y + daysBeforeMonth y m + (d - 1)

/-- Fuel-driven day normalization of the `Date` constructor: carry an
out-of-range day-of-month into the neighbouring months.  Callers supply
fuel that is sufficient (`normDaysGo_in_range`). -/
def normDaysGo : Nat → Int × Int × Int → Int × Int × Int
  | 0, s => s
  | f + 1, (y, m, d) =>
    if d < 1 then
      normDaysGo f (if m = 0 then y - 1 else y, if m = 0 then 11 else m - 1,
        d + daysInMonthYM (if m = 0 then y - 1 else y) (if m = 0 then 11 else m - 1))
    else if daysInMonthYM y m < d then
      normDaysGo f (if m = 11 then y + 1 else y, if m = 11 then 0 else m + 1,
        d - daysInMonthYM y m)
    else (y, m, d)

/-- A JS `Date`: normalized civil components, naive local time. -/
structure JSDate where
  year : Int
  month : Int
  day : Int
  hours : Int
  minutes : Int
  seconds : Int
  ms : Int
deriving DecidableEq, Repr

/-- The `new Date(y, m, d, hh, mm, ss, ms)` constructor. -/
def newDate (y m d hh mm ss ms : Int) : JSDate :=
  let y0 := if 0 ≤ y ∧ y ≤ 99 then 1900 + y else y
  let ym := y0 + m / 12
  let mn := m % 12
  let t := hh * 3600000 + mm * 60000 + ss * 1000 + ms
  let carry := t / 86400000
  let tod := t % 86400000
  let p := normDaysGo ((d + carry).natAbs + 40) (ym, mn, d + carry)
  { year := p.1, month := p.2.1, day := p.2.2,
    hours := tod / 3600000,
    minutes := (tod % 3600000) / 60000,
    seconds := (tod % 60000) / 1000,
    ms := tod % 1000 }

/-- Total milliseconds of a date on the proleptic timeline; JS `Date`
comparison and subtraction compare these. -/
def toMillis (dt : JSDate) : Int :=
  dayNumber dt.year dt.month dt.day * 86400000
    + dt.hours * 3600000 + dt.minutes * 60000 + dt.seconds * 1000 + dt.ms

/-- Component ranges of a normalized JS `Date`; every value a JS host hands
over, and every value `newDate` builds, satisfies this. -/
def InRange (dt : JSDate) : Prop :=
  0 ≤ dt.month ∧ dt.month ≤ 11 ∧
  1 ≤ dt.day ∧ dt.day ≤ daysInMonthYM dt.year dt.month ∧
  0 ≤ dt.hours ∧ dt.hours ≤ 23 ∧
  0 ≤ dt.minutes ∧ dt.minutes ≤ 59 ∧
  0 ≤ dt.seconds ∧ dt.seconds ≤ 59 ∧
  0 ≤ dt.ms ∧ dt.ms ≤ 999

instance (dt : JSDate) : Decidable (InRange dt) := by
  unfold InRange; infer_instance

theorem isLeap_iff (y : Int) :
    isLeap y = true ↔ ((y % 4 = 0 ∧ ¬ y % 100 = 0) ∨ y % 400 = 0) := by
  simp [isLeap]

theorem daysInMonthYM_bounds (y m : Int) :
    28 ≤ daysInMonthYM y m ∧ daysInMonthYM y m ≤ 31 := by
  unfold daysInMonthYM
  repeat' split
  all_goals omega

/-- Crossing into the next month advances the day number by the month
length. -/
theorem dayNumber_next_month (y m : Int) (h0 : 0 ≤ m) (h1 : m ≤ 11) :
    dayNumber (if m = 11 then y + 1 else y) (if m = 11 then 0 else m + 1) 1
      = dayNumber y m 1 + daysInMonthYM y m := by
  interval_cases m <;>
    (simp only [dayNumber, daysBeforeYear, daysBeforeMonth, daysInMonthYM,
      leapsBefore, isLeap_iff]) <;> norm_num <;> omega

/-- The mirrored form, for the borrow direction. -/
theorem dayNumber_prev_month (y m : Int) (h0 : 0 ≤ m) (h1 : m ≤ 11) :
    dayNumber y m 1
      = dayNumber (if m = 0 then y - 1 else y) (if m = 0 then 11 else m - 1) 1
        + daysInMonthYM (if m = 0 then y - 1 else y) (if m = 0 then 11 else m - 1) := by
  interval_cases m <;>
    (simp only [dayNumber, daysBeforeYear, daysBeforeMonth, daysInMonthYM,
      leapsBefore, isLeap_iff]) <;> norm_num <;> omega

/-- Each normalization step keeps the month in range and preserves the day
number (hence the timeline position), for any fuel. -/
theorem normDaysGo_dayNumber (f : Nat) :
    ∀ y m d : Int, 0 ≤ m → m ≤ 11 →
      (0 ≤ (normDaysGo f (y, m, d)).2.1 ∧ (normDaysGo f (y, m, d)).2.1 ≤ 11) ∧
      dayNumber (normDaysGo f (y, m, d)).1 (normDaysGo f (y, m, d)).2.1
          (normDaysGo f (y, m, d)).2.2
        = dayNumber y m d := by
  induction f with
  | zero => intro y m d h0 h1; simp [normDaysGo, h0, h1]
  | succ f ih =>
    intro y m d h0 h1
    rw [normDaysGo]
    by_cases hlt : d < 1
    · rw [if_pos hlt]
      have hm' : (0 ≤ (if m = 0 then (11 : Int) else m - 1)) ∧
          (if m = 0 then (11 : Int) else m - 1) ≤ 11 := by split_ifs <;> omega
      have hrec := ih (if m = 0 then y - 1 else y) (if m = 0 then 11 else m - 1)
        (d + daysInMonthYM (if m = 0 then y - 1 else y) (if m = 0 then 11 else m - 1))
        hm'.1 hm'.2
      refine ⟨hrec.1, ?_⟩
      rw [hrec.2]
      have hcross := dayNumber_prev_month y m h0 h1
      simp only [dayNumber] at hcross ⊢
      omega
    · rw [if_neg hlt]
      by_cases hgt : daysInMonthYM y m < d
      · rw [if_pos hgt]
        have hm' : (0 ≤ (if m = 11 then (0 : Int) else m + 1)) ∧
            (if m = 11 then (0 : Int) else m + 1) ≤ 11 := by split_ifs <;> omega
        have hrec := ih (if m = 11 then y + 1 else y) (if m = 11 then 0 else m + 1)
          (d - daysInMonthYM y m) hm'.1 hm'.2
        refine ⟨hrec.1, ?_⟩
        rw [hrec.2]
        have hcross := dayNumber_next_month y m h0 h1
        simp only [dayNumber] at hcross ⊢
        omega
      · rw [if_neg hgt]
        exact ⟨⟨h0, h1⟩, rfl⟩

/-- Fuel measure of the day-normalization loop. -/
def normFuelNeed (d : Int) : Nat :=
  (if d < 1 then 35 - d else d).toNat

theorem normFuelNeed_borrow (d dim : Int) (h1 : 28 ≤ dim) (h2 : dim ≤ 31)
    (h3 : d < 1) : normFuelNeed (d + dim) < normFuelNeed d := by
  simp only [normFuelNeed]
  split_ifs <;> omega

theorem normFuelNeed_carry (d dim : Int) (h1 : 28 ≤ dim) (h2 : dim ≤ 31)
    (h3 : dim < d) : normFuelNeed (d - dim) < normFuelNeed d := by
  simp only [normFuelNeed]
  split_ifs <;> omega

/-- With sufficient fuel the normalization lands in range. -/
theorem normDaysGo_in_range (f : Nat) :
    ∀ y m d : Int, 0 ≤ m → m ≤ 11 → normFuelNeed d < f →
      1 ≤ (normDaysGo f (y, m, d)).2.2 ∧
      (normDaysGo f (y, m, d)).2.2
        ≤ daysInMonthYM (normDaysGo f (y, m, d)).1 (normDaysGo f (y, m, d)).2.1 := by
  induction f with
  | zero => intro y m d _ _ hf; simp [normFuelNeed] at hf
  | succ f ih =>
    intro y m d h0 h1 hf
    rw [normDaysGo]
    by_cases hlt : d < 1
    · rw [if_pos hlt]
      have hm' : (0 ≤ (if m = 0 then (11 : Int) else m - 1)) ∧
          (if m = 0 then (11 : Int) else m - 1) ≤ 11 := by split_ifs <;> omega
      have hdim := daysInMonthYM_bounds (if m = 0 then y - 1 else y)
        (if m = 0 then 11 else m - 1)
      have hstep := normFuelNeed_borrow d
        (daysInMonthYM (if m = 0 then y - 1 else y) (if m = 0 then 11 else m - 1))
        hdim.1 hdim.2 hlt
      exact ih _ _ _ hm'.1 hm'.2 (by omega)
    · rw [if_neg hlt]
      by_cases hgt : daysInMonthYM y m < d
      · rw [if_pos hgt]
        have hm' : (0 ≤ (if m = 11 then (0 : Int) else m + 1)) ∧
            (if m = 11 then (0 : Int) else m + 1) ≤ 11 := by split_ifs <;> omega
        have hdim := daysInMonthYM_bounds y m
        have hstep := normFuelNeed_carry d (daysInMonthYM y m) hdim.1 hdim.2 hgt
        exact ih _ _ _ hm'.1 hm'.2 (by omega)
      · rw [if_neg hgt]
        have hdim := daysInMonthYM_bounds y m
        constructor
        · show (1 : Int) ≤ d
          omega
        · show d ≤ daysInMonthYM y m
          omega

theorem normFuelNeed_lt (d : Int) : normFuelNeed d < d.natAbs + 40 := by
  simp only [normFuelNeed]
  split_ifs <;> omega

/-- `newDate` always produces a value with all components in range. -/
theorem newDate_in_range (y m d hh mm ss ms : Int) :
    InRange (newDate y m d hh mm ss ms) := by
  have h12 : 0 ≤ m % 12 ∧ m % 12 ≤ 11 := by omega
  have hd := normDaysGo_in_range
    ((d + (hh * 3600000 + mm * 60000 + ss * 1000 + ms) / 86400000).natAbs + 40)
    ((if 0 ≤ y ∧ y ≤ 99 then 1900 + y else y) + m / 12) (m % 12)
    (d + (hh * 3600000 + mm * 60000 + ss * 1000 + ms) / 86400000)
    h12.1 h12.2 (normFuelNeed_lt _)
  have hm := normDaysGo_dayNumber
    ((d + (hh * 3600000 + mm * 60000 + ss * 1000 + ms) / 86400000).natAbs + 40)
    ((if 0 ≤ y ∧ y ≤ 99 then 1900 + y else y) + m / 12) (m % 12)
    (d + (hh * 3600000 + mm * 60000 + ss * 1000 + ms) / 86400000)
    h12.1 h12.2
  simp only [newDate, InRange]
  refine ⟨hm.1.1, hm.1.2, hd.1, hd.2, ?_, ?_, ?_, ?_, ?_, ?_, ?_, ?_⟩ <;> omega

/-- Master formula: the timeline value of a constructed date is linear in
all seven arguments (with the two-digit-year rule applied to `y` and the
month folded into the year by floor division). -/
theorem toMillis_newDate (y m d hh mm ss ms : Int) :
    toMillis (newDate y m d hh mm ss ms)
      = dayNumber ((if 0 ≤ y ∧ y ≤ 99 then 1900 + y else y) + m / 12) (m % 12) d
          * 86400000
        + (hh * 3600000 + mm * 60000 + ss * 1000 + ms) := by
  have h12 : 0 ≤ m % 12 ∧ m % 12 ≤ 11 := by omega
  have hm := normDaysGo_dayNumber
    ((d + (hh * 3600000 + mm * 60000 + ss * 1000 + ms) / 86400000).natAbs + 40)
    ((if 0 ≤ y ∧ y ≤ 99 then 1900 + y else y) + m / 12) (m % 12)
    (d + (hh * 3600000 + mm * 60000 + ss * 1000 + ms) / 86400000)
    h12.1 h12.2
  simp only [newDate, toMillis]
  rw [hm.2]
  simp only [dayNumber]
  omega

/-- With any fuel, an already in-range day is a fixed point. -/
theorem normDaysGo_fixed (f : Nat) (y m d : Int) (h1 : 1 ≤ d)
    (h2 : d ≤ daysInMonthYM y m) : normDaysGo f (y, m, d) = (y, m, d) := by
  cases f with
  | zero => rfl
  | succ f => rw [normDaysGo, if_neg (by omega), if_neg (by omega)]

/-- On in-range, quirk-free arguments the constructor is the identity. -/
theorem newDate_eq_of_in_range (y m d hh mm ss ms : Int)
    (hq : ¬ (0 ≤ y ∧ y ≤ 99)) (hm0 : 0 ≤ m) (hm1 : m ≤ 11)
    (hd1 : 1 ≤ d) (hd2 : d ≤ daysInMonthYM y m)
    (hh1 : 0 ≤ hh) (hh2 : hh ≤ 23) (hmin1 : 0 ≤ mm) (hmin2 : mm ≤ 59)
    (hs1 : 0 ≤ ss) (hs2 : ss ≤ 59) (hms1 : 0 ≤ ms) (hms2 : ms ≤ 999) :
    newDate y m d hh mm ss ms = ⟨y, m, d, hh, mm, ss, ms⟩ := by
  have e1 : m / 12 = 0 := by omega
  have e2 : m % 12 = m := by omega
  have tcar : (hh * 3600000 + mm * 60000 + ss * 1000 + ms) / 86400000 = 0 := by
    omega
  simp only [newDate, if_neg hq, e1, e2, tcar, add_zero]
  rw [normDaysGo_fixed _ _ _ _ (by omega) hd2]
  simp only [JSDate.mk.injEq, true_and]
  refine ⟨?_, ?_, ?_, ?_⟩ <;> omega

/-- The time-of-day fields of a constructed date, when the time arguments
are already in range. -/
theorem newDate_time_fields (y m d hh mm ss ms : Int)
    (hh1 : 0 ≤ hh) (hh2 : hh ≤ 23) (hmin1 : 0 ≤ mm) (hmin2 : mm ≤ 59)
    (hs1 : 0 ≤ ss) (hs2 : ss ≤ 59) (hms1 : 0 ≤ ms) (hms2 : ms ≤ 999) :
    (newDate y m d hh mm ss ms).hours = hh ∧
    (newDate y m d hh mm ss ms).minutes = mm ∧
    (newDate y m d hh mm ss ms).seconds = ss ∧
    (newDate y m d hh mm ss ms).ms = ms := by
  simp only [newDate]
  refine ⟨?_, ?_, ?_, ?_⟩ <;> omega

/-- A day argument within one month-step of range, plus at most two days of
time carry, moves the year by at most one. -/
theorem normDaysGo_year_window (f : Nat) (y m dc : Int) (_h0 : 0 ≤ m)
    (_h1 : m ≤ 11) (hl : -1 ≤ dc) (hr : dc ≤ daysInMonthYM y m + 3)
    (hf : 2 ≤ f) :
    y - 1 ≤ (normDaysGo f (y, m, dc)).1 ∧ (normDaysGo f (y, m, dc)).1 ≤ y + 1 := by
  obtain ⟨g, rfl⟩ : ∃ g, f = g + 2 := ⟨f - 2, by omega⟩
  have hdim := daysInMonthYM_bounds y m
  rw [normDaysGo]
  by_cases hlt : dc < 1
  · rw [if_pos hlt]
    have hdim' := daysInMonthYM_bounds (if m = 0 then y - 1 else y)
      (if m = 0 then 11 else m - 1)
    rw [normDaysGo_fixed _ _ _ _ (by omega) (by omega)]
    constructor
    · show y - 1 ≤ (if m = 0 then y - 1 else y)
      split_ifs <;> omega
    · show (if m = 0 then y - 1 else y) ≤ y + 1
      split_ifs <;> omega
  · rw [if_neg hlt]
    by_cases hgt : daysInMonthYM y m < dc
    · rw [if_pos hgt]
      have hdim' := daysInMonthYM_bounds (if m = 11 then y + 1 else y)
        (if m = 11 then 0 else m + 1)
      rw [normDaysGo_fixed _ _ _ _ (by omega) (by omega)]
      constructor
      · show y - 1 ≤ (if m = 11 then y + 1 else y)
        split_ifs <;> omega
      · show (if m = 11 then y + 1 else y) ≤ y + 1
        split_ifs <;> omega
    · rw [if_neg hgt]
      exact ⟨(by omega : y - 1 ≤ y), (by omega : y ≤ y + 1)⟩

namespace date_utils

/-- `date_utils.get_date_values`. -/
def get_date_values (d : JSDate) : List Int :=
  [d.year, d.month, d.day, d.hours, d.minutes, d.seconds, d.ms]

/-- The unit names taken by `date_utils.add` and `date_utils.diff`. -/
inductive TimeScale
  | year | month | day | hour | minute | second | millisecond
deriving DecidableEq

/-- `date_utils.add(date, qty, scale)`: read the seven components, add `qty`
to the one named by `scale`, rebuild through the `Date` constructor. -/
def add (date : JSDate) (qty : Int) (scale : TimeScale) : JSDate :=
  newDate
    (date.year + if scale = .year then qty else 0)
    (date.month + if scale = .month then qty else 0)
    (date.day + if scale = .day then qty else 0)
    (date.hours + if scale = .hour then qty else 0)
    (date.minutes + if scale = .minute then qty else 0)
    (date.seconds + if scale = .second then qty else 0)
    (date.ms + if scale = .millisecond then qty else 0)

/-- `date_utils.diff(a, b, scale)`: the millisecond difference scaled down
through the chain s/60/60/24/30/12 (month ≈ 30 days, year ≈ 360 days) and
floored. -/
def diff (a b : JSDate) (scale : TimeScale) : Int :=
  match scale with
  | .millisecond => toMillis a - toMillis b
  | .second => (toMillis a - toMillis b) / 1000
  | .minute => (toMillis a - toMillis b) / 60000
  | .hour => (toMillis a - toMillis b) / 3600000
  | .day => (toMillis a - toMillis b) / 86400000
  | .month => (toMillis a - toMillis b) / 2592000000
  | .year => (toMillis a - toMillis b) / 31104000000

end date_utils

theorem add_day_def (dt : JSDate) (k : Int) :
    date_utils.add dt k .day
      = newDate dt.year dt.month (dt.day + k) dt.hours dt.minutes dt.seconds dt.ms := by
  simp [date_utils.add]

theorem add_hour_def (dt : JSDate) (k : Int) :
    date_utils.add dt k .hour
      = newDate dt.year dt.month dt.day (dt.hours + k) dt.minutes dt.seconds dt.ms := by
  simp [date_utils.add]

/-- Years that keep one whole calendar step away from the two-digit-year
window `[0, 99]` of the `Date` constructor. -/
def YearSafe (dt : JSDate) : Prop := dt.year ≤ -2 ∨ 101 ≤ dt.year

instance (dt : JSDate) : Decidable (YearSafe dt) := by
  unfold YearSafe; infer_instance

/-- Adding days to a normalized quirk-safe date shifts the timeline
linearly. -/
theorem toMillis_add_day (dt : JSDate) (k : Int) (h : InRange dt)
    (hy : ¬ (0 ≤ dt.year ∧ dt.year ≤ 99)) :
    toMillis (date_utils.add dt k .day) = toMillis dt + k * 86400000 := by
  obtain ⟨hm0, hm1, _⟩ := h
  rw [add_day_def, toMillis_newDate, if_neg hy]
  have e1 : dt.month / 12 = 0 := by omega
  have e2 : dt.month % 12 = dt.month := by omega
  simp only [e1, e2, add_zero]
  simp only [toMillis, dayNumber]
  omega

/-- Adding hours to a normalized quirk-safe date shifts the timeline
linearly. -/
theorem toMillis_add_hour (dt : JSDate) (k : Int) (h : InRange dt)
    (hy : ¬ (0 ≤ dt.year ∧ dt.year ≤ 99)) :
    toMillis (date_utils.add dt k .hour) = toMillis dt + k * 3600000 := by
  obtain ⟨hm0, hm1, _⟩ := h
  rw [add_hour_def, toMillis_newDate, if_neg hy]
  have e1 : dt.month / 12 = 0 := by omega
  have e2 : dt.month % 12 = dt.month := by omega
  simp only [e1, e2, add_zero]
  simp only [toMillis, dayNumber]
  omega

/-- `add _ k 'day'` keeps the time-of-day fields of a normalized date. -/
theorem add_day_time_fields (dt : JSDate) (k : Int) (h : InRange dt) :
    (date_utils.add dt k .day).hours = dt.hours ∧
    (date_utils.add dt k .day).minutes = dt.minutes ∧
    (date_utils.add dt k .day).seconds = dt.seconds ∧
    (date_utils.add dt k .day).ms = dt.ms := by
  obtain ⟨_, _, _, _, h5, h6, h7, h8, h9, h10, h11, h12⟩ := h
  rw [add_day_def]
  exact newDate_time_fields _ _ _ _ _ _ _ h5 h6 h7 h8 h9 h10 h11 h12

/-- `add` produces in-range values. -/
theorem add_in_range (dt : JSDate) (k : Int) (scale : date_utils.TimeScale) :
    InRange (date_utils.add dt k scale) :=
  newDate_in_range _ _ _ _ _ _ _

/-- One `add _ k 'day'` step with `|k| ≤ 2` moves the year by at most
one. -/
theorem add_day_year_close (dt : JSDate) (k : Int) (h : InRange dt)
    (hy : ¬ (0 ≤ dt.year ∧ dt.year ≤ 99)) (hk1 : -2 ≤ k) (hk2 : k ≤ 2) :
    dt.year - 1 ≤ (date_utils.add dt k .day).year ∧
    (date_utils.add dt k .day).year ≤ dt.year + 1 := by
  obtain ⟨hm0, hm1, hd1, hd2, h5, h6, h7, h8, h9, h10, h11, h12⟩ := h
  rw [add_day_def]
  have e1 : dt.month / 12 = 0 := by omega
  have e2 : dt.month % 12 = dt.month := by omega
  have tcar : (dt.hours * 3600000 + dt.minutes * 60000 + dt.seconds * 1000
      + dt.ms) / 86400000 = 0 := by omega
  simp only [newDate, if_neg hy, e1, e2, tcar, add_zero]
  exact normDaysGo_year_window ((dt.day + k).natAbs + 40) dt.year dt.month
    (dt.day + k) hm0 hm1 (by omega) (by omega) (by omega)

/-- One `add _ 24 'hour'` step moves the year by at most one. -/
theorem add_hour24_year_close (dt : JSDate) (h : InRange dt)
    (hy : ¬ (0 ≤ dt.year ∧ dt.year ≤ 99)) :
    dt.year - 1 ≤ (date_utils.add dt 24 .hour).year ∧
    (date_utils.add dt 24 .hour).year ≤ dt.year + 1 := by
  obtain ⟨hm0, hm1, hd1, hd2, h5, h6, h7, h8, h9, h10, h11, h12⟩ := h
  rw [add_hour_def]
  have e1 : dt.month / 12 = 0 := by omega
  have e2 : dt.month % 12 = dt.month := by omega
  have tcar : ((dt.hours + 24) * 3600000 + dt.minutes * 60000
      + dt.seconds * 1000 + dt.ms) / 86400000 = 1 := by omega
  simp only [newDate, if_neg hy, e1, e2, tcar, add_zero]
  exact normDaysGo_year_window ((dt.day + 1).natAbs + 40) dt.year dt.month
    (dt.day + 1) hm0 hm1 (by omega) (by omega) (by omega)

/-- A raw date field of a task record: absent (`undefined`/`null`), a
`Date` object, or a string to be parsed. -/
inductive DateInput
  | undef
  | date (d : JSDate)
  | str (s : List Char)
deriving DecidableEq

/-- JS truthiness of a date field: `undefined`/`null` and the empty string
are falsy, any `Date` object and any non-empty string are truthy. -/
def DateInput.truthy : DateInput → Bool
  | .undef => false
  | .date _ => true
  | .str s => !s.isEmpty

/-- JS `String.prototype.split` with a character-class separator (covers
both the `'-'` date separator and the `[.:]` time separator). -/
def jsSplitP (p : Char → Bool) : List Char → List (List Char)
  | [] => [[]]
  | c :: cs =>
    if p c then [] :: jsSplitP p cs
    else
      match jsSplitP p cs with
      | [] => [[c]]
      | r :: rs => (c :: r) :: rs

/-- Value of a decimal digit character. -/
def digitVal (c : Char) : Int := (c.toNat : Int) - 48

/-- `parseInt(str, 10)` on the shapes the date parser meets: the longest
leading run of decimal digits, `NaN` (`none`) when there is none.  (Sign
marks and surrounding whitespace never occur in the split date fields.) -/
def jsParseInt (l : List Char) : Option Int :=
  let ds := l.takeWhile (fun c => c.isDigit)
  if ds.isEmpty then none
  else some (ds.foldl (fun a c => a * 10 + digitVal c) 0)

/-- `Number(str)` coercion for the time fields (digit strings; the empty
string coerces to 0). -/
def jsToNumber (l : List Char) : Option Int :=
  if l.all (fun c => c.isDigit) then
    some (l.foldl (fun a c => a * 10 + digitVal c) 0)
  else none

/-- The bundled `padStart` polyfill, for a single-character pad string. -/
def padStart (s : List Char) (target : Nat) (pad : Char) : List Char :=
  if target < s.length then s
  else List.replicate (target - s.length) pad ++ s

/-- Decimal digits of a natural number, fuel-driven so it computes by
kernel reduction. -/
def natToCharsGo : Nat → Nat → List Char
  | 0, _ => []
  | f + 1, n =>
    if n < 10 then [Char.ofNat (48 + n)]
    else natToCharsGo f (n / 10) ++ [Char.ofNat (48 + n % 10)]

def natToChars (n : Nat) : List Char := natToCharsGo (n + 1) n

/-- JS number-to-string conversion (`val + ''`) for integer values. -/
def intToChars (i : Int) : List Char :=
  if i < 0 then [Char.ofNat 45] ++ natToChars (-i).toNat else natToChars i.toNat

/-- `'0.' + s` then `parseFloat * 1000`, truncated to whole milliseconds as
the `Date` constructor would. -/
def fracMs (s : List Char) : Option Int :=
  if s.all (fun c => c.isDigit) then
    some (s.foldl (fun a c => a * 10 + digitVal c) 0 * 1000 / (10 ^ s.length : Int))
  else none

/-- `new Date(...vals)` on the spread value list built by the parser: at
least year and month must be present (the parser always supplies both, the
month possibly `NaN`), the day defaults to 1, time fields to 0, a `NaN`
anywhere gives an invalid date (`none`), arguments beyond the seventh are
ignored. -/
def newDateFromVals (vals : List (Option Int)) : Option JSDate :=
  let vals := vals.take 7
  if vals.length < 2 then none
  else if vals.any (fun v => v.isNone) then none
  else
    some (newDate ((vals.getD 0 (some 0)).getD 0) ((vals.getD 1 (some 0)).getD 0)
      ((vals.getD 2 (some 1)).getD 1) ((vals.getD 3 (some 0)).getD 0)
      ((vals.getD 4 (some 0)).getD 0) ((vals.getD 5 (some 0)).getD 0)
      ((vals.getD 6 (some 0)).getD 0))

namespace date_utils

/-- The string arm of `date_utils.parse`: split off an optional time part
at a space, split the date part on `'-'` and `parseInt` each field, make
the month 0-indexed (a missing month field becomes `NaN`, as
`undefined - 1` would), split the time part on `[.:]` with the
fractional-second hack on a fourth entry, and hand everything to the
`Date` constructor. -/
def parse_string (s : List Char) : Option JSDate :=
  let parts := jsSplitP (fun c => c == ' ') s
  let dp := (jsSplitP (fun c => c == '-') (parts.headD [])).map jsParseInt
  let y := dp.getD 0 none
  let mo := (dp.getD 1 none).map (fun v => v - 1)
  let rest := dp.drop 2
  let tp : List (List Char) :=
    match parts.get? 1 with
    | some t => if t.isEmpty then [] else jsSplitP (fun c => c == ':' || c == '.') t
    | none => []
  let timevals : List (Option Int) :=
    if tp.length = 4 then (tp.take 3).map jsToNumber ++ [fracMs (tp.getD 3 [])]
    else tp.map jsToNumber
  newDateFromVals (y :: mo :: rest ++ timevals)

/-- `date_utils.parse`: a `Date` is returned unchanged, a string is parsed,
anything else gives `undefined`. -/
def parse : DateInput → Option JSDate
  | .date d => some d
  | .str s => parse_string s
  | .undef => none

/-- `date_utils.to_string(date, with_time)`: the seven component values,
month re-offset by one, each zero-padded to two digits (three for the
milliseconds), joined as `YYYY-MM-DD` plus an optional time part. -/
def to_string (d : JSDate) (with_time : Bool) : List Char :=
  let p2 := fun (v : Int) => padStart (intToChars v) 2 (Char.ofNat 48)
  let p3 := fun (v : Int) => padStart (intToChars v) 3 (Char.ofNat 48)
  let ds := p2 d.year ++ Char.ofNat 45 :: p2 (d.month + 1)
    ++ Char.ofNat 45 :: p2 d.day
  let ts := p2 d.hours ++ Char.ofNat 58 :: p2 d.minutes
    ++ Char.ofNat 58 :: p2 d.seconds ++ Char.ofNat 46 :: p3 d.ms
  if with_time then ds ++ Char.ofNat 32 :: ts else ds

end date_utils

/-- The raw `dependencies` field: absent, a comma-separated string, or an
array of id strings. -/
inductive DepsField
  | undef
  | str (s : List Char)
  | arr (l : List String)
deriving DecidableEq

/-- JS `String.prototype.trim` on the split dependency entries (space
whitespace). -/
def jsTrim (l : List Char) : List Char :=
  ((l.dropWhile (fun c => c == ' ')).reverse.dropWhile (fun c => c == ' ')).reverse

/-- `dependencies.split(',').map(d => d.trim()).filter(d => d)`. -/
def splitDeps (s : List Char) : List String :=
  ((((jsSplitP (fun c => c == ',') s).map jsTrim).filter
    (fun d => !d.isEmpty)).map (fun l => String.mk l))

/-- A task record as `setup_tasks` sees and mutates it. -/
structure RawTask where
  name : String
  start : DateInput
  end_ : DateInput
  dependencies : DepsField
  id : Option String
  visible : Option Bool
  invalid : Bool := false
  _start : Option JSDate := none
  _end : Option JSDate := none
  _index : Int := 0
deriving DecidableEq

/-- `task.visible || task.visible === undefined`. -/
def RawTask.isVisible (t : RawTask) : Bool := t.visible.getD true

/-- The end-of-day rule of `setup_tasks`: an end with no time-of-day is
pushed forward 24 hours ("2018-09-09 becomes 2018-09-09 23:59:59" per the
comment).  An invalid date has NaN components, so its test is false. -/
def bumpVal (e : JSDate) : JSDate :=
  if e.hours = 0 ∧ e.minutes = 0 ∧ e.seconds = 0 ∧ e.ms = 0 then
    date_utils.add e 24 .hour
  else e

/-- The `if (diff(task._end, task._start, 'year') > 10)` test of
`setup_tasks` (false on a missing or invalid date: NaN > 10). -/
def tenYearB (t : RawTask) : Bool :=
  match date_utils.parse t.end_, date_utils.parse t.start with
  | some e, some s => decide (date_utils.diff e s .year > 10)
  | _, _ => false

/-- The raw `end` field after the ten-year rule may have nulled it. -/
def rawEndAfterTenYear (t : RawTask) : DateInput :=
  if tenYearB t then .undef else t.end_

/-- The `_start` value `setup_tasks` computes: the parsed start, or
`today` when neither date is given, or `end − 2 days` when only the end
is. -/
def normStartVal (today : JSDate) (t : RawTask) : Option JSDate :=
  let s0 := date_utils.parse t.start
  let e0 := date_utils.parse t.end_
  let startTruthy := t.start.truthy
  let endTruthy := (rawEndAfterTenYear t).truthy
  if !startTruthy && !endTruthy then some today
  else if !startTruthy && endTruthy then
    e0.map (fun e => date_utils.add e (-2) .day)
  else s0

/-- The `_end` value `setup_tasks` computes: the parsed end, or
`today + 2 days` when neither date is given, or `_start + 2 days` when
only the start is, always fed through the end-of-day bump. -/
def normEndVal (today : JSDate) (t : RawTask) : Option JSDate :=
  let e0 := date_utils.parse t.end_
  let startTruthy := t.start.truthy
  let endTruthy := (rawEndAfterTenYear t).truthy
  let e2 :=
    if !startTruthy && !endTruthy then some (date_utils.add today 2 .day)
    else if startTruthy && !endTruthy then
      (normStartVal today t).map (fun v => date_utils.add v 2 .day)
    else e0
  e2.map bumpVal

/-- The body of the `visible_tasks.map` inside `setup_tasks`, for the task
at visible position `i`.  `today` stands for the value of
`date_utils.today()` (a midnight date) and `suffix` for the random suffix
`generate_id` would draw. -/
def normalize_one (today : JSDate) (suffix : String) (i : Int) (t : RawTask) :
    RawTask :=
  { t with
    end_ := rawEndAfterTenYear t
    _start := normStartVal today t
    _end := normEndVal today t
    _index := i
    invalid := t.invalid || !t.start.truthy || !(rawEndAfterTenYear t).truthy
    dependencies :=
      match t.dependencies with
      | .arr l => .arr l
      | .str s => .arr (splitDeps s)
      | .undef => .arr []
    id :=
      match t.id with
      | some v => some v
      | none => some (t.name ++ "_" ++ suffix) }

/-- The traversal of `setup_tasks`: visible tasks are normalized in place
and numbered consecutively, invisible tasks are left untouched. -/
def setup_tasks_go (today : JSDate) (suffix : String) :
    Int → List RawTask → List RawTask
  | _, [] => []
  | i, t :: ts =>
    if t.isVisible then
      normalize_one today suffix i t :: setup_tasks_go today suffix (i + 1) ts
    else t :: setup_tasks_go today suffix i ts

/-- `setup_tasks` (sans the graph rebuild, which reads but does not write
the fields below). -/
def setup_tasks (today : JSDate) (suffix : String) (tasks : List RawTask) :
    List RawTask :=
  setup_tasks_go today suffix 0 tasks

/-- The dependency list a `for (let d of t.dependencies)` loop sees: a
normalized task holds an array; an un-normalized string iterates its
characters (JS `for..of` on a string). -/
def RawTask.depList (t : RawTask) : List String :=
  match t.dependencies with
  | .arr l => l
  | .str s => s.map (fun c => String.mk [c])
  | .undef => []

/-- `setup_dependencies`: the forward map as a lookup function; `none` is a
key the loop never pushed to (`this.dependency_map[d]` is `undefined`).
Buckets collect `t.id` of every task listing `d`, in task order, with
multiplicity. -/
def dependency_map (tasks : List RawTask) (d : String) : Option (List String) :=
  let vals := tasks.flatMap (fun t =>
    t.depList.filterMap (fun dep => if dep = d then t.id else none))
  if vals.isEmpty then none else some vals

/-- One `reduce`/`concat` pass of `get_all_dependent_tasks` over the
frontier: a missing bucket (`undefined`) is concatenated as the single
element `none`. -/
def dependentsStep (dmap : String → Option (List String))
    (tp : List (Option String)) : List (Option String) :=
  tp.foldl (fun acc c =>
    acc ++ match c with
      | none => [none]
      | some sid =>
        match dmap sid with
        | none => [none]
        | some l => l.map some) []

/-- The `while (to_process.length)` loop of `get_all_dependent_tasks`,
fuel-driven; the next frontier is filtered only against the PREVIOUS
frontier (`!to_process.includes(d)`), exactly as the source does.  `none`
means the loop is still running when the fuel runs out. -/
def get_all_dependent_tasks_go (dmap : String → Option (List String)) :
    Nat → List (Option String) → List (Option String) → Option (List (Option String))
  | 0, _, _ => none
  | f + 1, out, tp =>
    if tp.isEmpty then some out
    else
      get_all_dependent_tasks_go dmap f (out ++ dependentsStep dmap tp)
        ((dependentsStep dmap tp).filter (fun d => !tp.contains d))

/-- `get_all_dependent_tasks(task_id)` with the closing
`out.filter(Boolean)` (dropping `undefined` entries and empty ids). -/
def get_all_dependent_tasks (fuel : Nat)
    (dmap : String → Option (List String)) (task_id : String) :
    Option (List String) :=
  (get_all_dependent_tasks_go dmap fuel [] [some task_id]).map
    (fun out => (out.filterMap id).filter (fun sid => !sid.isEmpty))

/-- The six view modes. -/
inductive ViewMode
  | quarterDay | halfDay | day | week | month | year
deriving DecidableEq

/-- The option fields `update_view_scale` writes and `get_snap_position`
reads. -/
structure Options where
  view_mode : ViewMode
  step : ℚ
  column_width : ℚ
deriving DecidableEq

/-- The stock defaults of `setup_options`. -/
def default_options : Options :=
  { view_mode := .day, step := 24, column_width := 30 }

/-- `update_view_scale`: the fixed step / column-width table. -/
def update_view_scale (o : Options) (mode : ViewMode) : Options :=
  match mode with
  | .day => { o with view_mode := mode, step := 24, column_width := 38 }
  | .halfDay => { o with view_mode := mode, step := 12, column_width := 38 }
  | .quarterDay => { o with view_mode := mode, step := 6, column_width := 38 }
  | .week => { o with view_mode := mode, step := 168, column_width := 140 }
  | .month => { o with view_mode := mode, step := 720, column_width := 120 }
  | .year => { o with view_mode := mode, step := 8760, column_width := 120 }

/-- Truncation toward zero, as JS float→int conversion does. -/
def jsTrunc (q : ℚ) : ℤ := if 0 ≤ q then ⌊q⌋ else ⌈q⌉

/-- JS `%`: remainder carrying the dividend's sign. -/
def jsMod (a b : ℚ) : ℚ := a - b * jsTrunc (a / b)

/-- `get_snap_position(dx)`. -/
def get_snap_position (o : Options) (dx : ℚ) : ℚ :=
  if o.view_mode = .week then
    dx - jsMod dx (o.column_width / 7)
      + (if jsMod dx (o.column_width / 7) < o.column_width / 14 then 0
         else o.column_width / 7)
  else if o.view_mode = .month then
    dx - jsMod dx (o.column_width / 30)
      + (if jsMod dx (o.column_width / 30) < o.column_width / 60 then 0
         else o.column_width / 30)
  else
    dx - jsMod dx o.column_width
      + (if jsMod dx o.column_width < o.column_width / 2 then 0
         else o.column_width)

/-- The quantization unit of the current mode, per the spec's reading. -/
def snap_quantum (o : Options) : ℚ :=
  if o.view_mode = .week then o.column_width / 7
  else if o.view_mode = .month then o.column_width / 30
  else o.column_width

/-- The geometry state of one bar's `$bar` rect during a gesture: current
attributes and the press-time snapshot (`ox`/`oy`/`owidth`). -/
structure BarState where
  x : ℚ
  y : ℚ
  width : ℚ
  ox : ℚ
  oy : ℚ
  owidth : ℚ
  type_ : String
  id : String
deriving DecidableEq

/-- `Bar.update_bar_position({x, width, y})`: a falsy coordinate (absent,
`null`, or the number 0) is skipped, and a width below one grid column is
skipped. -/
def update_bar_position (column_width : ℚ) (b : BarState)
    (x : Option ℚ) (width : Option ℚ) (y : Option ℚ) : BarState :=
  let b1 :=
    match x with
    | some v => if v ≠ 0 then { b with x := v } else b
    | none => b
  let b2 :=
    match width with
    | some v => if v ≠ 0 ∧ column_width ≤ v then { b1 with width := v } else b1
    | none => b1
  match y with
  | some v => if v ≠ 0 then { b2 with y := v } else b2
  | none => b2

/-- The running minimum over the descendants' x, seeded at `Infinity`
(`none`; the loop `if (bar.getX() < min_x)`). -/
def minX (bars : List BarState) : Option ℚ :=
  bars.foldl (fun acc b =>
    match acc with
    | none => some b.x
    | some m => if b.x < m then some b.x else some m) none

/-- The running maximum over the descendants' right edges, seeded at
`-Infinity` (the loop `if (bar.getWidth() + bar.getX() > max_x)`). -/
def maxEndX (bars : List BarState) : Option ℚ :=
  bars.foldl (fun acc b =>
    match acc with
    | none => some (b.width + b.x)
    | some m => if m < b.width + b.x then some (b.width + b.x) else some m) none

/-- The per-ancestor block of the `mousemove` handler (`index.js`,
`parent_bars.forEach`): a "project"/"tag" ancestor is rebuilt from the
min-x / max-end of its dependent set — x and width together when
`min_x > ox`, width only otherwise — through `update_bar_position`, so the
falsy-zero and minimum-width guards apply.  Other ancestors are untouched.
(An empty descendant set would make `min_x = Infinity`,
`width = NaN`, which `ℚ` cannot carry; the claims only concern ancestors
with descendants.) -/
def envelope_update (column_width : ℚ) (anc : BarState)
    (descendants : List BarState) : BarState :=
  if anc.type_ = "project" ∨ anc.type_ = "tag" then
    match minX descendants, maxEndX descendants with
    | some mn, some mx =>
      if anc.ox < mn then
        update_bar_position column_width anc (some mn) (some (mx - mn)) none
      else
        update_bar_position column_width anc none (some (mx - anc.ox)) none
    | _, _ => anc
  else anc

/-- `get_task(id)`: first task whose id matches. -/
def get_task (tasks : List RawTask) (id : String) : Option RawTask :=
  tasks.find? (fun t => t.id == some id)

/-- An arrow as `make_arrows` produces it: the resolved dependency task
("from") and the dependent task ("to"). -/
structure ArrowSpec where
  from_task : RawTask
  to_task : RawTask
deriving DecidableEq

/-- `make_arrows`: for every visible task, map its dependency ids through
`get_task`; an unresolved id yields `undefined`, removed by the closing
`.filter(Boolean)`. -/
def make_arrows (tasks visible_tasks : List RawTask) : List ArrowSpec :=
  visible_tasks.foldl (fun acc task =>
    acc ++ ((task.depList.map (fun task_id =>
      (get_task tasks task_id).map (fun dep => ArrowSpec.mk dep task))).filterMap
        (fun a => a))) []

theorem update_bar_position_x_some (cw : ℚ) (b : BarState) (w y : Option ℚ)
    (v : ℚ) :
    (update_bar_position cw b (some v) w y).x = if v ≠ 0 then v else b.x := by
  rcases w with _ | wv <;> rcases y with _ | yv <;>
    simp only [update_bar_position] <;> split_ifs <;> rfl

theorem update_bar_position_x_none (cw : ℚ) (b : BarState) (w y : Option ℚ) :
    (update_bar_position cw b none w y).x = b.x := by
  rcases w with _ | wv <;> rcases y with _ | yv <;>
    simp only [update_bar_position] <;> split_ifs <;> rfl

theorem update_bar_position_width_some (cw : ℚ) (b : BarState)
    (x y : Option ℚ) (v : ℚ) :
    (update_bar_position cw b x (some v) y).width
      = if v ≠ 0 ∧ cw ≤ v then v else b.width := by
  rcases x with _ | xv <;> rcases y with _ | yv <;>
    simp only [update_bar_position] <;> split_ifs <;> rfl

theorem update_bar_position_width_none (cw : ℚ) (b : BarState)
    (x y : Option ℚ) :
    (update_bar_position cw b x none y).width = b.width := by
  rcases x with _ | xv <;> rcases y with _ | yv <;>
    simp only [update_bar_position] <;> split_ifs <;> rfl

theorem update_bar_position_y_some (cw : ℚ) (b : BarState) (x w : Option ℚ)
    (v : ℚ) :
    (update_bar_position cw b x w (some v)).y = if v ≠ 0 then v else b.y := by
  rcases x with _ | xv <;> rcases w with _ | wv <;>
    simp only [update_bar_position] <;> split_ifs <;> rfl

theorem update_bar_position_y_none (cw : ℚ) (b : BarState) (x w : Option ℚ) :
    (update_bar_position cw b x w none).y = b.y := by
  rcases x with _ | xv <;> rcases w with _ | wv <;>
    simp only [update_bar_position] <;> split_ifs <;> rfl

/-- A sample bar for the geometry witnesses. -/
def demoBar : BarState :=
  { x := 100, y := 50, width := 76, ox := 100, oy := 50, owidth := 76,
    type_ := "task", id := "t1" }

/-- C8: a resize whose resulting width would fall below one grid column is
rejected — `update_bar_position` leaves the width unchanged — and no update
whatsoever can leave a bar with zero or negative width when its width and
the column width were positive. -/
theorem C8_min_width_resize_rejected (cw : ℚ) (b : BarState)
    (x y : Option ℚ) (w : ℚ) (hw : w < cw) :
    (update_bar_position cw b x (some w) y).width = b.width ∧
    (0 < b.width → 0 < cw →
      ∀ x2 w2 y2, 0 < (update_bar_position cw b x2 w2 y2).width) := by
  constructor
  · rw [update_bar_position_width_some]
    rw [if_neg (by rintro ⟨-, hcl⟩; linarith)]
  · intro hb hcw x2 w2 y2
    rcases w2 with _ | v
    · rw [update_bar_position_width_none]; exact hb
    · rw [update_bar_position_width_some]
      split_ifs with h
      · linarith [h.2]
      · exact hb

/-- C8 witness: a 10px-wide resize under a 38px column is dropped and the
bar keeps a positive width. -/
theorem C8_min_width_resize_rejected_witness :
    (update_bar_position 38 demoBar none (some 10) none).width = demoBar.width ∧
    0 < (update_bar_position 38 demoBar (some 5) (some 10) (some 7)).width :=
  ⟨(C8_min_width_resize_rejected 38 demoBar none none 10 (by norm_num)).1,
   (C8_min_width_resize_rejected 38 demoBar none none 10 (by norm_num)).2
     (by norm_num [demoBar]) (by norm_num) (some 5) (some 10) (some 7)⟩

/-- C9: `update_bar_position` treats a zero coordinate exactly like an
absent one — x = 0, width = 0 and y = 0 each leave the corresponding
attribute unchanged — so no call can move a bar to x = 0 unless it was
there already. -/
theorem C9_zero_coordinate_is_noop (cw : ℚ) (b : BarState) :
    (∀ w y, (update_bar_position cw b (some 0) w y).x = b.x) ∧
    (∀ x y, (update_bar_position cw b x (some 0) y).width = b.width) ∧
    (∀ x w, (update_bar_position cw b x w (some 0)).y = b.y) ∧
    (∀ x w y, (update_bar_position cw b x w y).x = 0 → b.x = 0) := by
  refine ⟨?_, ?_, ?_, ?_⟩
  · intro w y; rw [update_bar_position_x_some]; simp
  · intro x y; rw [update_bar_position_width_some]; simp
  · intro x w; rw [update_bar_position_y_some]; simp
  · intro x w y h
    rcases x with _ | v
    · rwa [update_bar_position_x_none] at h
    · rw [update_bar_position_x_some] at h
      split_ifs at h with hv
      · exact absurd h hv
      · exact h

/-- A bar already sitting at x = 0, for the C9 witness. -/
def demoBarAtZero : BarState :=
  { x := 0, y := 50, width := 76, ox := 0, oy := 50, owidth := 76,
    type_ := "task", id := "t2" }

/-- C9 witness: concrete zero updates leave every attribute in place, and a
bar found at x = 0 after an update was at x = 0 before. -/
theorem C9_zero_coordinate_is_noop_witness :
    (update_bar_position 38 demoBar (some 0) (some 50) (some 7)).x = demoBar.x ∧
    (update_bar_position 38 demoBar (some 5) (some 0) (some 7)).width
      = demoBar.width ∧
    (update_bar_position 38 demoBar (some 5) (some 50) (some 0)).y = demoBar.y ∧
    demoBarAtZero.x = 0 :=
  ⟨(C9_zero_coordinate_is_noop 38 demoBar).1 (some 50) (some 7),
   (C9_zero_coordinate_is_noop 38 demoBar).2.1 (some 5) (some 7),
   (C9_zero_coordinate_is_noop 38 demoBar).2.2.1 (some 5) (some 50),
   (C9_zero_coordinate_is_noop 38 demoBarAtZero).2.2.2 (some 0) none none
     (by norm_num [update_bar_position_x_some, demoBarAtZero])⟩

theorem make_arrows_eq (tasks vis : List RawTask) :
    make_arrows tasks vis
      = vis.flatMap (fun task => task.depList.filterMap
          (fun tid => (get_task tasks tid).map (fun dep => ArrowSpec.mk dep task))) := by
  suffices h : ∀ (l : List RawTask) (acc : List ArrowSpec),
      l.foldl (fun acc task =>
        acc ++ ((task.depList.map (fun task_id =>
          (get_task tasks task_id).map (fun dep => ArrowSpec.mk dep task))).filterMap
            (fun a => a))) acc
        = acc ++ l.flatMap (fun task => task.depList.filterMap
            (fun tid => (get_task tasks tid).map (fun dep => ArrowSpec.mk dep task))) by
    simpa [make_arrows] using h vis []
  intro l
  induction l with
  | nil => intro acc; simp
  | cons t ts ih =>
    intro acc
    simp only [List.foldl_cons, List.flatMap_cons, ih, List.append_assoc]
    congr 2
    rw [List.filterMap_map]
    rfl

theorem get_task_eq_some (tasks : List RawTask) (id : String) (u : RawTask)
    (h : get_task tasks id = some u) : u ∈ tasks ∧ u.id = some id := by
  unfold get_task at h
  refine ⟨List.mem_of_find?_eq_some h, ?_⟩
  have hp := List.find?_some h
  simpa using hp

theorem get_task_eq_none (tasks : List RawTask) (id : String)
    (h : get_task tasks id = none) : ∀ u ∈ tasks, u.id ≠ some id := by
  unfold get_task at h
  intro u hu
  have hp := List.find?_eq_none.mp h u hu
  simpa using hp

theorem length_flatMap_eq_sum {α β : Type} (f : α → List β) (l : List α) :
    (l.flatMap f).length = (l.map (fun a => (f a).length)).sum := by
  induction l with
  | nil => rfl
  | cons a l ih => simp [List.flatMap_cons, ih]

theorem length_filterMap_eq_countP {α β : Type} (g : α → Option β)
    (l : List α) :
    (l.filterMap g).length = l.countP (fun x => (g x).isSome) := by
  induction l with
  | nil => rfl
  | cons a l ih =>
    cases hg : g a <;>
      simp [List.filterMap_cons, hg, List.countP_cons, ih]

/-- C7: arrow construction silently skips a dependency id that resolves to
no task — no arrow carries it — while every resolvable dependency of a
visible task still yields its arrow, and the arrow count is exactly the
number of resolvable dependency references. -/
theorem C7_unresolved_dependency_skipped (tasks vis : List RawTask)
    (t : RawTask) (d : String) (ht : t ∈ vis) (hd : d ∈ t.depList) :
    (get_task tasks d = none →
      ∀ a ∈ make_arrows tasks vis, a.from_task.id ≠ some d) ∧
    (∀ u, get_task tasks d = some u →
      ArrowSpec.mk u t ∈ make_arrows tasks vis) ∧
    (make_arrows tasks vis).length
      = (vis.map (fun v =>
          v.depList.countP (fun tid => (get_task tasks tid).isSome))).sum := by
  refine ⟨?_, ?_, ?_⟩
  · intro hnone a ha
    rw [make_arrows_eq] at ha
    simp only [List.mem_flatMap, List.mem_filterMap, Option.map_eq_some'] at ha
    obtain ⟨task, -, tid, -, u, hget, rfl⟩ := ha
    have hu := get_task_eq_some tasks tid u hget
    intro hcontra
    exact get_task_eq_none tasks d hnone u hu.1 (by simpa using hcontra)
  · intro u hu
    rw [make_arrows_eq]
    simp only [List.mem_flatMap, List.mem_filterMap, Option.map_eq_some']
    exact ⟨t, ht, d, hd, u, hu, rfl⟩
  · rw [make_arrows_eq, length_flatMap_eq_sum]
    apply congrArg
    apply List.map_congr_left
    intro v _
    rw [length_filterMap_eq_countP]
    congr 1
    funext tid
    cases get_task tasks tid <;> rfl

/-- A bare task record with only a name, an id equal to the name and a
dependency array, for the graph examples. -/
def stubTask (nm : String) (deps : List String) : RawTask :=
  { name := nm, start := .undef, end_ := .undef, dependencies := .arr deps,
    id := some nm, visible := none }

def c7dep : RawTask := stubTask "u" []

def c7task : RawTask := stubTask "t" ["u", "ghost"]

/-- C7 witness: with tasks `u` and `t` where `t` depends on `u` and on the
unresolvable id `ghost`, the arrow for `u` is produced and exactly one
arrow exists. -/
theorem C7_unresolved_dependency_skipped_witness :
    ArrowSpec.mk c7dep c7task ∈ make_arrows [c7dep, c7task] [c7task] ∧
    (make_arrows [c7dep, c7task] [c7task]).length = 1 :=
  ⟨(C7_unresolved_dependency_skipped [c7dep, c7task] [c7task] c7task "u"
      (by simp) (by simp [c7task, stubTask, RawTask.depList])).2.1 c7dep (by rfl),
   ((C7_unresolved_dependency_skipped [c7dep, c7task] [c7task] c7task "ghost"
      (by simp) (by simp [c7task, stubTask, RawTask.depList])).2.2).trans (by rfl)⟩

/-- Tasks A and B depending on each other — the spec's own cycle
example. -/
def cycleTasks : List RawTask := [stubTask "A" ["B"], stubTask "B" ["A"]]

/-- A task depending on itself. -/
def selfLoopTasks : List RawTask := [stubTask "A" ["A"]]

/-- On the A ↔ B cycle the worklist of `get_all_dependent_tasks` alternates
between {B} and {A} forever: the frontier filter only consults the previous
frontier, so no fuel ever exhausts the loop. -/
theorem cycle_go_never_stops (f : Nat) :
    ∀ out,
      get_all_dependent_tasks_go (dependency_map cycleTasks) f out
          [some "A"] = none ∧
      get_all_dependent_tasks_go (dependency_map cycleTasks) f out
          [some "B"] = none := by
  induction f with
  | zero => intro out; exact ⟨rfl, rfl⟩
  | succ f ih =>
    intro out
    constructor
    · rw [get_all_dependent_tasks_go, if_neg (by decide)]
      have e1 : dependentsStep (dependency_map cycleTasks) [some "A"]
          = [some "B"] := by rfl
      rw [e1]
      have e2 : ([some "B"] : List (Option String)).filter
          (fun d => !(([some "A"] : List (Option String)).contains d))
          = [some "B"] := by rfl
      rw [e2]
      exact (ih _).2
    · rw [get_all_dependent_tasks_go, if_neg (by decide)]
      have e1 : dependentsStep (dependency_map cycleTasks) [some "B"]
          = [some "A"] := by rfl
      rw [e1]
      have e2 : ([some "A"] : List (Option String)).filter
          (fun d => !(([some "B"] : List (Option String)).contains d))
          = [some "A"] := by rfl
      rw [e2]
      exact (ih _).1

/-- C1 (code bug): on the dependency graph where A depends on B and B on A
— the cycle the spec itself names — `get_all_dependent_tasks("A")` never
terminates, whatever fuel it is given; and on the self-loop A → A it does
terminate but returns a result containing A itself.  Both contradict the
claimed cycle-safe, self-excluding closure. -/
theorem C1_dependents_cycle_divergence :
    (∀ fuel : Nat,
      get_all_dependent_tasks fuel (dependency_map cycleTasks) "A" = none) ∧
    get_all_dependent_tasks 3 (dependency_map selfLoopTasks) "A"
      = some ["A"] := by
  constructor
  · intro fuel
    unfold get_all_dependent_tasks
    rw [(cycle_go_never_stops fuel []).1]
    rfl
  · rfl

/-- For a non-negative delta the snap arithmetic rounds to the nearest
multiple of the quantum, exact midpoints up. -/
theorem snap_rounds_nonneg (q dx : ℚ) (hq : 0 < q) (hdx : 0 ≤ dx) :
    dx - jsMod dx q + (if jsMod dx q < q / 2 then 0 else q)
      = q * ⌊dx / q + 1 / 2⌋ := by
  have hqne : q ≠ 0 := ne_of_gt hq
  have h0 : 0 ≤ dx / q := div_nonneg hdx hq.le
  have hmod : jsMod dx q = dx - q * ⌊dx / q⌋ := by
    simp [jsMod, jsTrunc, if_pos h0]
  have hfl : ((⌊dx / q⌋ : ℤ) : ℚ) ≤ dx / q := Int.floor_le _
  have hfu : dx / q < ⌊dx / q⌋ + 1 := Int.lt_floor_add_one _
  have hdq : q * (dx / q) = dx := mul_div_cancel₀ dx hqne
  rw [hmod]
  by_cases hr : dx - q * ⌊dx / q⌋ < q / 2
  · rw [if_pos hr]
    have hlt : dx / q < (⌊dx / q⌋ : ℚ) + 1 / 2 := by
      rw [div_lt_iff₀ hq]
      nlinarith
    have hfloor : ⌊dx / q + 1 / 2⌋ = ⌊dx / q⌋ := by
      rw [Int.floor_eq_iff]
      constructor
      · push_cast
        linarith
      · push_cast
        linarith
    rw [hfloor]
    ring
  · rw [if_neg hr]
    push_neg at hr
    have hge : (⌊dx / q⌋ : ℚ) + 1 / 2 ≤ dx / q := by
      rw [le_div_iff₀ hq]
      nlinarith
    have hfloor : ⌊dx / q + 1 / 2⌋ = ⌊dx / q⌋ + 1 := by
      rw [Int.floor_eq_iff]
      constructor
      · push_cast
        linarith
      · push_cast
        linarith
    rw [hfloor]
    push_cast
    ring

/-- For a negative delta the JS remainder is non-positive, always below the
half-quantum threshold, so the snap truncates toward zero. -/
theorem snap_truncates_neg (q dx : ℚ) (hq : 0 < q) (hdx : dx < 0) :
    dx - jsMod dx q + (if jsMod dx q < q / 2 then 0 else q)
      = q * ⌈dx / q⌉ := by
  have hqne : q ≠ 0 := ne_of_gt hq
  have h0 : ¬ 0 ≤ dx / q := not_le.mpr (div_neg_of_neg_of_pos hdx hq)
  have hmod : jsMod dx q = dx - q * ⌈dx / q⌉ := by
    simp [jsMod, jsTrunc, if_neg h0]
  have hcl : dx / q ≤ (⌈dx / q⌉ : ℚ) := Int.le_ceil _
  have hdq : q * (dx / q) = dx := mul_div_cancel₀ dx hqne
  have hle : dx - q * ⌈dx / q⌉ ≤ 0 := by nlinarith
  rw [hmod, if_pos (by linarith)]
  ring

/-- C3 (amended): `get_snap_position` quantizes by the current mode's
quantum — `column_width` for Day, Quarter-Day, Half-Day and Year,
`column_width / 7` for Week, `column_width / 30` for Month.  A
non-negative delta snaps to the nearest multiple with an exact midpoint
rounding UP — so under Day scale with `column_width = 38` a 19px drag
snaps to +38 (not 0, as the claim's scenario says), 20px to +38 and 18px
to 0 — while a negative delta truncates toward zero. -/
theorem C3_snap_quantization :
    (∀ (mode : ViewMode) (dx : ℚ), 0 ≤ dx →
      get_snap_position (update_view_scale default_options mode) dx
        = snap_quantum (update_view_scale default_options mode)
          * ⌊dx / snap_quantum (update_view_scale default_options mode) + 1 / 2⌋) ∧
    (∀ (mode : ViewMode) (dx : ℚ), dx < 0 →
      get_snap_position (update_view_scale default_options mode) dx
        = snap_quantum (update_view_scale default_options mode)
          * ⌈dx / snap_quantum (update_view_scale default_options mode)⌉) ∧
    get_snap_position (update_view_scale default_options .day) 19 = 38 ∧
    get_snap_position (update_view_scale default_options .day) 20 = 38 ∧
    get_snap_position (update_view_scale default_options .day) 18 = 0 := by
  refine ⟨?_, ?_, ?_, ?_, ?_⟩
  · intro mode dx h
    cases mode
    case week =>
      simp only [get_snap_position, update_view_scale, default_options,
        snap_quantum, if_pos (rfl : ViewMode.week = ViewMode.week)]
      have e := snap_rounds_nonneg (140 / 7) dx (by norm_num) h
      rw [show (140 : ℚ) / 7 / 2 = 140 / 14 by norm_num] at e
      exact e
    case month =>
      simp only [get_snap_position, update_view_scale, default_options,
        snap_quantum, if_neg (show ¬ ViewMode.month = ViewMode.week by decide),
        if_pos (rfl : ViewMode.month = ViewMode.month)]
      have e := snap_rounds_nonneg (120 / 30) dx (by norm_num) h
      rw [show (120 : ℚ) / 30 / 2 = 120 / 60 by norm_num] at e
      exact e
    case day =>
      simp only [get_snap_position, update_view_scale, default_options,
        snap_quantum, if_neg (show ¬ ViewMode.day = ViewMode.week by decide),
        if_neg (show ¬ ViewMode.day = ViewMode.month by decide)]
      exact snap_rounds_nonneg 38 dx (by norm_num) h
    case halfDay =>
      simp only [get_snap_position, update_view_scale, default_options,
        snap_quantum, if_neg (show ¬ ViewMode.halfDay = ViewMode.week by decide),
        if_neg (show ¬ ViewMode.halfDay = ViewMode.month by decide)]
      exact snap_rounds_nonneg 38 dx (by norm_num) h
    case quarterDay =>
      simp only [get_snap_position, update_view_scale, default_options,
        snap_quantum, if_neg (show ¬ ViewMode.quarterDay = ViewMode.week by decide),
        if_neg (show ¬ ViewMode.quarterDay = ViewMode.month by decide)]
      exact snap_rounds_nonneg 38 dx (by norm_num) h
    case year =>
      simp only [get_snap_position, update_view_scale, default_options,
        snap_quantum, if_neg (show ¬ ViewMode.year = ViewMode.week by decide),
        if_neg (show ¬ ViewMode.year = ViewMode.month by decide)]
      exact snap_rounds_nonneg 120 dx (by norm_num) h
  · intro mode dx h
    cases mode
    case week =>
      simp only [get_snap_position, update_view_scale, default_options,
        snap_quantum, if_pos (rfl : ViewMode.week = ViewMode.week)]
      have e := snap_truncates_neg (140 / 7) dx (by norm_num) h
      rw [show (140 : ℚ) / 7 / 2 = 140 / 14 by norm_num] at e
      exact e
    case month =>
      simp only [get_snap_position, update_view_scale, default_options,
        snap_quantum, if_neg (show ¬ ViewMode.month = ViewMode.week by decide),
        if_pos (rfl : ViewMode.month = ViewMode.month)]
      have e := snap_truncates_neg (120 / 30) dx (by norm_num) h
      rw [show (120 : ℚ) / 30 / 2 = 120 / 60 by norm_num] at e
      exact e
    case day =>
      simp only [get_snap_position, update_view_scale, default_options,
        snap_quantum, if_neg (show ¬ ViewMode.day = ViewMode.week by decide),
        if_neg (show ¬ ViewMode.day = ViewMode.month by decide)]
      exact snap_truncates_neg 38 dx (by norm_num) h
    case halfDay =>
      simp only [get_snap_position, update_view_scale, default_options,
        snap_quantum, if_neg (show ¬ ViewMode.halfDay = ViewMode.week by decide),
        if_neg (show ¬ ViewMode.halfDay = ViewMode.month by decide)]
      exact snap_truncates_neg 38 dx (by norm_num) h
    case quarterDay =>
      simp only [get_snap_position, update_view_scale, default_options,
        snap_quantum, if_neg (show ¬ ViewMode.quarterDay = ViewMode.week by decide),
        if_neg (show ¬ ViewMode.quarterDay = ViewMode.month by decide)]
      exact snap_truncates_neg 38 dx (by norm_num) h
    case year =>
      simp only [get_snap_position, update_view_scale, default_options,
        snap_quantum, if_neg (show ¬ ViewMode.year = ViewMode.week by decide),
        if_neg (show ¬ ViewMode.year = ViewMode.month by decide)]
      exact snap_truncates_neg 120 dx (by norm_num) h
  · simp only [get_snap_position, update_view_scale, default_options,
      if_neg (show ¬ ViewMode.day = ViewMode.week by decide),
      if_neg (show ¬ ViewMode.day = ViewMode.month by decide)]
    norm_num [jsMod, jsTrunc]
  · simp only [get_snap_position, update_view_scale, default_options,
      if_neg (show ¬ ViewMode.day = ViewMode.week by decide),
      if_neg (show ¬ ViewMode.day = ViewMode.month by decide)]
    norm_num [jsMod, jsTrunc]
  · simp only [get_snap_position, update_view_scale, default_options,
      if_neg (show ¬ ViewMode.day = ViewMode.week by decide),
      if_neg (show ¬ ViewMode.day = ViewMode.month by decide)]
    norm_num [jsMod, jsTrunc]

/-- C3 witness: a 25px drag under Week scale (quantum 20) snaps to 20, and
a -57px drag under Day scale truncates toward zero to -38. -/
theorem C3_snap_quantization_witness :
    get_snap_position (update_view_scale default_options .week) 25 = 20 ∧
    get_snap_position (update_view_scale default_options .day) (-57) = -38 := by
  have hqw : snap_quantum (update_view_scale default_options .week) = 140 / 7 := by
    simp only [snap_quantum, update_view_scale, default_options,
      if_pos (rfl : ViewMode.week = ViewMode.week), if_true]
  have hqd : snap_quantum (update_view_scale default_options .day) = 38 := by
    simp only [snap_quantum, update_view_scale, default_options,
      if_neg (show ¬ ViewMode.day = ViewMode.week by decide),
      if_neg (show ¬ ViewMode.day = ViewMode.month by decide)]
  constructor
  · refine (C3_snap_quantization.1 .week 25 (by norm_num)).trans ?_
    rw [hqw, show ⌊(25 : ℚ) / (140 / 7) + 1 / 2⌋ = 1 by norm_num]
    norm_num
  · refine (C3_snap_quantization.2.1 .day (-57) (by norm_num)).trans ?_
    have hc : ⌈(-57 : ℚ) / 38⌉ = -1 := by
      rw [show ((-57 : ℚ) / 38) = -(3 / 2) by norm_num, Int.ceil_eq_iff]
      constructor <;> norm_num
    rw [hqd, hc]
    norm_num

/-- C3 counterexample: the claim's scenario says a 19px Day-scale drag
snaps to 0; the code snaps it to +38. -/
theorem C3_snap_counterexample :
    get_snap_position (update_view_scale default_options .day) 19 = 38 ∧
    (38 : ℚ) ≠ 0 := by
  constructor
  · simp only [get_snap_position, update_view_scale, default_options,
      if_neg (show ¬ ViewMode.day = ViewMode.week by decide),
      if_neg (show ¬ ViewMode.day = ViewMode.month by decide)]
    norm_num [jsMod, jsTrunc]
  · norm_num

/-- The claimed scenario: two children spanning x ∈ [0,76] and
x ∈ [114,190]. -/
def c5child1 : BarState :=
  { x := 0, y := 0, width := 76, ox := 0, oy := 0, owidth := 76,
    type_ := "task", id := "c1" }

def c5child2 : BarState :=
  { x := 114, y := 0, width := 76, ox := 114, oy := 0, owidth := 76,
    type_ := "task", id := "c2" }

/-- A project ancestor whose press-time left edge is already 0. -/
def c5anc : BarState :=
  { x := 0, y := 0, width := 180, ox := 0, oy := 0, owidth := 180,
    type_ := "project", id := "p" }

/-- A project ancestor whose press-time left edge was 10 — right of where
the children now start. -/
def c5ancMoved : BarState :=
  { x := 10, y := 0, width := 180, ox := 10, oy := 0, owidth := 180,
    type_ := "project", id := "p" }

/-- C5 (amended): during a move step a "project"/"tag" ancestor bar is
recomputed from its descendants' span [min_x, max_x]: when the span's left
edge lies strictly right of the ancestor's press-time x (`min_x > ox`),
both x and width are set to the tight envelope (provided min_x ≠ 0 and the
new width clears one grid column — `update_bar_position` guards); when
`min_x ≤ ox` only the width is set, to `max_x − ox`, which is the tight
envelope exactly when `min_x = ox`.  In particular, children spanning
[0,76] and [114,190] under an ancestor already at x = ox = 0 produce the
envelope x = 0, width = 190. -/
theorem C5_envelope_update (cw : ℚ) (anc : BarState) (ds : List BarState)
    (hcw : 0 < cw) (htype : anc.type_ = "project" ∨ anc.type_ = "tag")
    (mn mx : ℚ) (hmn : minX ds = some mn) (hmx : maxEndX ds = some mx) :
    ((anc.ox < mn → mn ≠ 0 → cw ≤ mx - mn →
      (envelope_update cw anc ds).x = mn ∧
      (envelope_update cw anc ds).width = mx - mn) ∧
    (mn ≤ anc.ox → cw ≤ mx - anc.ox →
      (envelope_update cw anc ds).x = anc.x ∧
      (envelope_update cw anc ds).width = mx - anc.ox)) ∧
    (envelope_update 38 c5anc [c5child1, c5child2]).x = 0 ∧
    (envelope_update 38 c5anc [c5child1, c5child2]).width = 190 := by
  have e : envelope_update cw anc ds
      = if anc.ox < mn then
          update_bar_position cw anc (some mn) (some (mx - mn)) none
        else update_bar_position cw anc none (some (mx - anc.ox)) none := by
    unfold envelope_update
    rw [if_pos htype, hmn, hmx]
  have hmn0 : minX [c5child1, c5child2] = some 0 := by
    norm_num [minX, c5child1, c5child2]
  have hmx0 : maxEndX [c5child1, c5child2] = some 190 := by
    norm_num [maxEndX, c5child1, c5child2]
  have e0 : envelope_update 38 c5anc [c5child1, c5child2]
      = if c5anc.ox < 0 then
          update_bar_position 38 c5anc (some 0) (some (190 - 0)) none
        else update_bar_position 38 c5anc none (some (190 - c5anc.ox)) none := by
    unfold envelope_update
    rw [if_pos (by left; rfl), hmn0, hmx0]
  refine ⟨⟨?_, ?_⟩, ?_, ?_⟩
  · intro h1 h2 h3
    rw [e, if_pos h1]
    constructor
    · rw [update_bar_position_x_some, if_pos h2]
    · rw [update_bar_position_width_some,
        if_pos ⟨by intro h0; rw [h0] at h3; linarith, h3⟩]
  · intro h1 h3
    rw [e, if_neg (not_lt.mpr h1)]
    constructor
    · rw [update_bar_position_x_none]
    · rw [update_bar_position_width_some,
        if_pos ⟨by intro h0; rw [h0] at h3; linarith, h3⟩]
  · rw [e0, if_neg (by norm_num [c5anc]), update_bar_position_x_none]
    rfl
  · rw [e0, if_neg (by norm_num [c5anc]), update_bar_position_width_some,
      if_pos (by norm_num [c5anc])]
    norm_num [c5anc]

/-- A child at [5, 81] and an ancestor pressed at ox = -5, exercising the
tight-envelope branch. -/
def c5childW : BarState :=
  { x := 5, y := 0, width := 76, ox := 5, oy := 0, owidth := 76,
    type_ := "task", id := "c1" }

def c5ancW : BarState :=
  { x := -5, y := 0, width := 180, ox := -5, oy := 0, owidth := 180,
    type_ := "project", id := "p" }

/-- C5 witness: children at [5,81] and [114,190] under an ancestor pressed
at -5 resize it to the tight envelope x = 5, width = 185. -/
theorem C5_envelope_update_witness :
    (envelope_update 38 c5ancW [c5childW, c5child2]).x = 5 ∧
    (envelope_update 38 c5ancW [c5childW, c5child2]).width = 185 := by
  have h := (C5_envelope_update 38 c5ancW [c5childW, c5child2] (by norm_num)
    (by left; rfl) 5 190
    (by norm_num [minX, c5childW, c5child2])
    (by norm_num [maxEndX, c5childW, c5child2])).1.1
    (by norm_num [c5ancW]) (by norm_num) (by norm_num)
  refine ⟨h.1, h.2.trans (by norm_num [c5ancW])⟩

/-- C5 counterexample: with the same children [0,76], [114,190] but an
ancestor whose press-time left edge was 10, the left edge moved LEFT and
the code only updates the width from ox — the bar ends at x = 10, width
180, not the claimed tight envelope x = 0, width = 190. -/
theorem C5_envelope_counterexample :
    (envelope_update 38 c5ancMoved [c5child1, c5child2]).x = 10 ∧
    (envelope_update 38 c5ancMoved [c5child1, c5child2]).width = 180 ∧
    ¬ ((envelope_update 38 c5ancMoved [c5child1, c5child2]).x = 0 ∧
       (envelope_update 38 c5ancMoved [c5child1, c5child2]).width = 190) := by
  have hmn0 : minX [c5child1, c5child2] = some 0 := by
    norm_num [minX, c5child1, c5child2]
  have hmx0 : maxEndX [c5child1, c5child2] = some 190 := by
    norm_num [maxEndX, c5child1, c5child2]
  have e0 : envelope_update 38 c5ancMoved [c5child1, c5child2]
      = if c5ancMoved.ox < 0 then
          update_bar_position 38 c5ancMoved (some 0) (some (190 - 0)) none
        else
          update_bar_position 38 c5ancMoved none (some (190 - c5ancMoved.ox))
            none := by
    unfold envelope_update
    rw [if_pos (by left; rfl), hmn0, hmx0]
  have hx : (envelope_update 38 c5ancMoved [c5child1, c5child2]).x = 10 := by
    rw [e0, if_neg (by norm_num [c5ancMoved]), update_bar_position_x_none]
    rfl
  have hw : (envelope_update 38 c5ancMoved [c5child1, c5child2]).width = 180 := by
    rw [e0, if_neg (by norm_num [c5ancMoved]), update_bar_position_width_some,
      if_pos (by norm_num [c5ancMoved])]
    norm_num [c5ancMoved]
  exact ⟨hx, hw, by rw [hx, hw]; norm_num⟩

/-- A falsy date field parses to `undefined` (absent) or an invalid date
(the empty string). -/
theorem parse_of_not_truthy (di : DateInput) (h : di.truthy = false) :
    date_utils.parse di = none := by
  cases di with
  | undef => rfl
  | date d => simp [DateInput.truthy] at h
  | str s =>
    have hs : s = [] := by
      simpa [DateInput.truthy] using h
    subst hs
    rfl

/-- For a start-only task the normalizer stores
`_end = bumpVal (start + 2 days)`. -/
theorem normalize_one_start_only (today : JSDate) (suffix : String) (i : Int)
    (t : RawTask) (S : JSDate) (hsT : t.start.truthy = true)
    (heT : t.end_.truthy = false)
    (hp : date_utils.parse t.start = some S) :
    (normalize_one today suffix i t)._end
      = some (bumpVal (date_utils.add S 2 .day)) := by
  have he0 : date_utils.parse t.end_ = none := parse_of_not_truthy _ heT
  simp [normalize_one, normStartVal, normEndVal, rawEndAfterTenYear, tenYearB,
    hp, he0, hsT, heT]

/-- For an end-only task the normalizer stores `_start = end − 2 days`. -/
theorem normalize_one_end_only (today : JSDate) (suffix : String) (i : Int)
    (t : RawTask) (E : JSDate) (hsT : t.start.truthy = false)
    (heT : t.end_.truthy = true)
    (hp : date_utils.parse t.end_ = some E) :
    (normalize_one today suffix i t)._start
      = some (date_utils.add E (-2) .day) := by
  have hs0 : date_utils.parse t.start = none := parse_of_not_truthy _ hsT
  simp [normalize_one, normStartVal, normEndVal, rawEndAfterTenYear, tenYearB,
    hp, hs0, hsT, heT]

/-- C2 (amended): a start-only task gets `_end = start + 2 days` when the
start has a nonzero time-of-day; when the start is at midnight the
end-of-day bump then adds another 24 hours, so `_end = start + 2 days +
24 h`.  An end-only task always gets `_start = end − 2 days`. -/
theorem C2_two_day_derivation (today : JSDate) (suffix : String) (i : Int)
    (t : RawTask) (S E : JSDate) :
    (t.start.truthy = true → t.end_.truthy = false →
      date_utils.parse t.start = some S → InRange S →
      ¬ (S.hours = 0 ∧ S.minutes = 0 ∧ S.seconds = 0 ∧ S.ms = 0) →
      (normalize_one today suffix i t)._end
        = some (date_utils.add S 2 .day)) ∧
    (t.start.truthy = true → t.end_.truthy = false →
      date_utils.parse t.start = some S →
      S.hours = 0 ∧ S.minutes = 0 ∧ S.seconds = 0 ∧ S.ms = 0 →
      (normalize_one today suffix i t)._end
        = some (date_utils.add (date_utils.add S 2 .day) 24 .hour)) ∧
    (t.start.truthy = false → t.end_.truthy = true →
      date_utils.parse t.end_ = some E →
      (normalize_one today suffix i t)._start
        = some (date_utils.add E (-2) .day)) := by
  refine ⟨?_, ?_, ?_⟩
  · intro hsT heT hp hIR hmid
    rw [normalize_one_start_only today suffix i t S hsT heT hp]
    have hf := add_day_time_fields S 2 hIR
    unfold bumpVal
    rw [hf.1, hf.2.1, hf.2.2.1, hf.2.2.2, if_neg hmid]
  · intro hsT heT hp hmid
    rw [normalize_one_start_only today suffix i t S hsT heT hp]
    obtain ⟨h1, h2, h3, h4⟩ := hmid
    have hf := newDate_time_fields S.year S.month (S.day + 2) S.hours S.minutes
      S.seconds S.ms (by omega) (by omega) (by omega) (by omega) (by omega)
      (by omega) (by omega) (by omega)
    unfold bumpVal
    rw [add_day_def, hf.1, hf.2.1, hf.2.2.1, hf.2.2.2,
      if_pos ⟨h1, h2, h3, h4⟩]
  · intro hsT heT hp
    exact normalize_one_end_only today suffix i t E hsT heT hp

def c2startMid : JSDate := ⟨2024, 0, 10, 0, 0, 0, 0⟩

def c2start5am : JSDate := ⟨2024, 0, 10, 5, 0, 0, 0⟩

def c2end5am : JSDate := ⟨2024, 0, 12, 5, 0, 0, 0⟩

def c2today : JSDate := ⟨2026, 9, 12, 0, 0, 0, 0⟩

def c2taskMid : RawTask :=
  { name := "a"
    start := .date c2startMid
    end_ := .undef
    dependencies := .undef
    id := none
    visible := none }

def c2task5am : RawTask :=
  { name := "a"
    start := .date c2start5am
    end_ := .undef
    dependencies := .undef
    id := none
    visible := none }

def c2taskEndOnly : RawTask :=
  { name := "a"
    start := .undef
    end_ := .date c2end5am
    dependencies := .undef
    id := none
    visible := none }

/-- C2 witness: a 05:00 start-only task ends exactly two days later, a
midnight start-only task two days plus the 24-hour bump later, and an
end-only task starts exactly two days earlier. -/
theorem C2_two_day_derivation_witness :
    (normalize_one c2today "s" 0 c2task5am)._end
      = some (date_utils.add c2start5am 2 .day) ∧
    (normalize_one c2today "s" 0 c2taskMid)._end
      = some (date_utils.add (date_utils.add c2startMid 2 .day) 24 .hour) ∧
    (normalize_one c2today "s" 0 c2taskEndOnly)._start
      = some (date_utils.add c2end5am (-2) .day) :=
  ⟨(C2_two_day_derivation c2today "s" 0 c2task5am c2start5am c2end5am).1
      (by rfl) (by rfl) (by rfl) (by decide) (by decide),
   (C2_two_day_derivation c2today "s" 0 c2taskMid c2startMid c2end5am).2.1
      (by rfl) (by rfl) (by rfl) (by decide),
   (C2_two_day_derivation c2today "s" 0 c2taskEndOnly c2start5am c2end5am).2.2
      (by rfl) (by rfl) (by rfl)⟩

/-- C2 counterexample: the start-only task beginning 2024-01-10 (midnight)
is normalized to `_end` = 2024-01-13, not start + 2 days = 2024-01-12 —
the end-of-day bump adds a third day. -/
theorem C2_two_day_counterexample :
    (normalize_one c2today "s" 0 c2taskMid)._end
      = some (⟨2024, 0, 13, 0, 0, 0, 0⟩ : JSDate) ∧
    (normalize_one c2today "s" 0 c2taskMid)._end
      ≠ some (date_utils.add c2startMid 2 .day) := by
  constructor
  · decide
  · decide

/-- A provided date field either is falsy or parses to a normalized,
quirk-safe `Date` (every host-built `Date` is normalized; quirk-safety
keeps one calendar step clear of the constructor's two-digit-year
window). -/
def GoodDateField (di : DateInput) : Prop :=
  di.truthy = true → ∃ S, date_utils.parse di = some S ∧ InRange S ∧ YearSafe S

/-- The shape of `date_utils.today()`: midnight, in range, quirk-safe. -/
def GoodToday (d : JSDate) : Prop :=
  InRange d ∧ YearSafe d ∧ d.hours = 0 ∧ d.minutes = 0 ∧ d.seconds = 0 ∧
    d.ms = 0

/-- The 10-year re-derivation condition exactly as the code computes it
(`diff(_end, _start, 'year') > 10`, false on missing/invalid dates). -/
def tenYearRule (t : RawTask) : Prop :=
  match date_utils.parse t.end_, date_utils.parse t.start with
  | some e, some s => date_utils.diff e s .year > 10
  | _, _ => False

theorem yearSafe_not_quirk (d : JSDate) (h : YearSafe d) :
    ¬ (0 ≤ d.year ∧ d.year ≤ 99) := by
  rcases h with h | h <;> omega

/-- The end-of-day bump never moves the end earlier. -/
theorem toMillis_bumpVal_ge (E : JSDate) (hIR : InRange E)
    (hq : ¬ (0 ≤ E.year ∧ E.year ≤ 99)) :
    toMillis E ≤ toMillis (bumpVal E) := by
  unfold bumpVal
  split_ifs with h
  · rw [toMillis_add_hour E 24 hIR hq]
    omega
  · omega

/-- The bumped end keeps a quirk-safe-enough year for further reasoning:
the year moves by at most one. -/
theorem bumpVal_not_quirk (E : JSDate) (hIR : InRange E) (hys : YearSafe E) :
    ¬ (0 ≤ (bumpVal E).year ∧ (bumpVal E).year ≤ 99) := by
  unfold bumpVal
  split_ifs with h
  · have hc := add_hour24_year_close E hIR (yearSafe_not_quirk E hys)
    rcases hys with hy | hy <;> omega
  · exact yearSafe_not_quirk E hys

/-- A start plus two days, possibly bumped, lies strictly after the
start. -/
theorem start_plus2_lt_bump (S : JSDate) (hIR : InRange S)
    (hys : YearSafe S) :
    toMillis S < toMillis (bumpVal (date_utils.add S 2 .day)) := by
  have hq := yearSafe_not_quirk S hys
  have h2 : toMillis (date_utils.add S 2 .day) = toMillis S + 2 * 86400000 :=
    toMillis_add_day S 2 hIR hq
  have hIR2 : InRange (date_utils.add S 2 .day) := add_in_range S 2 .day
  have hclose := add_day_year_close S 2 hIR hq (by norm_num) (by norm_num)
  have hq2 : ¬ (0 ≤ (date_utils.add S 2 .day).year ∧
      (date_utils.add S 2 .day).year ≤ 99) := by
    rcases hys with hy | hy <;> omega
  have hb := toMillis_bumpVal_ge (date_utils.add S 2 .day) hIR2 hq2
  omega

/-- An end minus two days lies strictly before the (possibly bumped)
end. -/
theorem endminus2_lt_bump (E : JSDate) (hIR : InRange E) (hys : YearSafe E) :
    toMillis (date_utils.add E (-2) .day) < toMillis (bumpVal E) := by
  have hq := yearSafe_not_quirk E hys
  have h2 : toMillis (date_utils.add E (-2) .day)
      = toMillis E + (-2) * 86400000 := toMillis_add_day E (-2) hIR hq
  have hb := toMillis_bumpVal_ge E hIR hq
  omega

/-- Start-only tasks keep their parsed start. -/
theorem normalize_one_start_only_start (today : JSDate) (suffix : String)
    (i : Int) (t : RawTask) (S : JSDate) (hsT : t.start.truthy = true)
    (heT : t.end_.truthy = false)
    (hp : date_utils.parse t.start = some S) :
    (normalize_one today suffix i t)._start = some S := by
  have he0 : date_utils.parse t.end_ = none := parse_of_not_truthy _ heT
  simp [normalize_one, normStartVal, normEndVal, rawEndAfterTenYear, tenYearB,
    hp, he0, hsT, heT]

/-- End-only tasks store the (possibly bumped) parsed end. -/
theorem normalize_one_end_only_end (today : JSDate) (suffix : String)
    (i : Int) (t : RawTask) (E : JSDate) (hsT : t.start.truthy = false)
    (heT : t.end_.truthy = true)
    (hp : date_utils.parse t.end_ = some E) :
    (normalize_one today suffix i t)._end = some (bumpVal E) := by
  have hs0 : date_utils.parse t.start = none := parse_of_not_truthy _ hsT
  simp [normalize_one, normStartVal, normEndVal, rawEndAfterTenYear, tenYearB,
    hp, hs0, hsT, heT]

/-- Tasks with neither date default to today .. today + 2 days
(bumped). -/
theorem normalize_one_defaults (today : JSDate) (suffix : String) (i : Int)
    (t : RawTask) (hsT : t.start.truthy = false)
    (heT : t.end_.truthy = false) :
    (normalize_one today suffix i t)._start = some today ∧
    (normalize_one today suffix i t)._end
      = some (bumpVal (date_utils.add today 2 .day)) := by
  have hs0 : date_utils.parse t.start = none := parse_of_not_truthy _ hsT
  have he0 : date_utils.parse t.end_ = none := parse_of_not_truthy _ heT
  constructor <;>
    simp [normalize_one, normStartVal, normEndVal, rawEndAfterTenYear, tenYearB,
      hs0, he0, hsT, heT]

theorem DateInput.truthy_undef : DateInput.undef.truthy = false := rfl

/-- Both dates given, raw span over ten 360-day years: the end is
re-derived from the start. -/
theorem normalize_one_ten_year (today : JSDate) (suffix : String) (i : Int)
    (t : RawTask) (S E : JSDate) (hsT : t.start.truthy = true)
    (heT : t.end_.truthy = true)
    (hpS : date_utils.parse t.start = some S)
    (hpE : date_utils.parse t.end_ = some E)
    (h10 : date_utils.diff E S .year > 10) :
    (normalize_one today suffix i t)._start = some S ∧
    (normalize_one today suffix i t)._end
      = some (bumpVal (date_utils.add S 2 .day)) := by
  constructor <;>
    simp [normalize_one, normStartVal, normEndVal, rawEndAfterTenYear, tenYearB,
      DateInput.truthy_undef, hpS, hpE, hsT, heT, h10]

/-- Both dates given, span within ten years: both are kept (the end
bumped). -/
theorem normalize_one_both (today : JSDate) (suffix : String) (i : Int)
    (t : RawTask) (S E : JSDate) (hsT : t.start.truthy = true)
    (heT : t.end_.truthy = true)
    (hpS : date_utils.parse t.start = some S)
    (hpE : date_utils.parse t.end_ = some E)
    (h10 : ¬ date_utils.diff E S .year > 10) :
    (normalize_one today suffix i t)._start = some S ∧
    (normalize_one today suffix i t)._end = some (bumpVal E) := by
  constructor <;>
    simp [normalize_one, normStartVal, normEndVal, rawEndAfterTenYear, tenYearB,
      hpS, hpE, hsT, heT, h10]

/-- C4 (amended): after normalization every task (with well-formed raw
dates) carries both `_start` and `_end`; `_end > _start` holds whenever
the task does not supply both dates, or the ten-year rule re-derives the
end, or — in the both-given case — the (possibly end-of-day-bumped)
supplied end lies after the supplied start.  An input whose end is at or
before its start is kept inverted (see the counterexample). -/
theorem C4_normalization_invariant (today : JSDate) (suffix : String)
    (i : Int) (t : RawTask) (htoday : GoodToday today)
    (hs : GoodDateField t.start) (he : GoodDateField t.end_) :
    ((normalize_one today suffix i t)._start).isSome ∧
    ((normalize_one today suffix i t)._end).isSome ∧
    ((¬ (t.start.truthy = true ∧ t.end_.truthy = true)) ∨ tenYearRule t ∨
      (∀ S E, date_utils.parse t.start = some S →
        date_utils.parse t.end_ = some E →
        toMillis S < toMillis (bumpVal E)) →
      ∀ s e, (normalize_one today suffix i t)._start = some s →
        (normalize_one today suffix i t)._end = some e →
        toMillis s < toMillis e) := by
  obtain ⟨hTIR, hTys, hTh, hTm, hTs, hTms⟩ := htoday
  by_cases hsT : t.start.truthy = true
  · by_cases heT : t.end_.truthy = true
    · obtain ⟨S, hpS, hSIR, hSys⟩ := hs hsT
      obtain ⟨E, hpE, hEIR, hEys⟩ := he heT
      by_cases h10 : date_utils.diff E S .year > 10
      · obtain ⟨e1, e2⟩ :=
          normalize_one_ten_year today suffix i t S E hsT heT hpS hpE h10
        refine ⟨by rw [e1]; rfl, by rw [e2]; rfl, ?_⟩
        intro _ s e hs' he'
        rw [e1] at hs'
        rw [e2] at he'
        injection hs' with hss
        injection he' with hee
        subst hss
        subst hee
        exact start_plus2_lt_bump S hSIR hSys
      · obtain ⟨e1, e2⟩ :=
          normalize_one_both today suffix i t S E hsT heT hpS hpE h10
        refine ⟨by rw [e1]; rfl, by rw [e2]; rfl, ?_⟩
        intro hdisj s e hs' he'
        rw [e1] at hs'
        rw [e2] at he'
        injection hs' with hss
        injection he' with hee
        subst hss
        subst hee
        rcases hdisj with hd | hd | hd
        · exact absurd ⟨hsT, heT⟩ hd
        · exfalso
          simp only [tenYearRule, hpE, hpS] at hd
          exact h10 hd
        · exact hd S E hpS hpE
    · obtain ⟨S, hpS, hSIR, hSys⟩ := hs hsT
      have heF : t.end_.truthy = false := by
        cases hv : t.end_.truthy
        · rfl
        · exact absurd hv heT
      have e1 := normalize_one_start_only_start today suffix i t S hsT heF hpS
      have e2 := normalize_one_start_only today suffix i t S hsT heF hpS
      refine ⟨by rw [e1]; rfl, by rw [e2]; rfl, ?_⟩
      intro _ s e hs' he'
      rw [e1] at hs'
      rw [e2] at he'
      injection hs' with hss
      injection he' with hee
      subst hss
      subst hee
      exact start_plus2_lt_bump S hSIR hSys
  · have hsF : t.start.truthy = false := by
      cases hv : t.start.truthy
      · rfl
      · exact absurd hv hsT
    by_cases heT : t.end_.truthy = true
    · obtain ⟨E, hpE, hEIR, hEys⟩ := he heT
      have e1 := normalize_one_end_only today suffix i t E hsF heT hpE
      have e2 := normalize_one_end_only_end today suffix i t E hsF heT hpE
      refine ⟨by rw [e1]; rfl, by rw [e2]; rfl, ?_⟩
      intro _ s e hs' he'
      rw [e1] at hs'
      rw [e2] at he'
      injection hs' with hss
      injection he' with hee
      subst hss
      subst hee
      exact endminus2_lt_bump E hEIR hEys
    · have heF : t.end_.truthy = false := by
        cases hv : t.end_.truthy
        · rfl
        · exact absurd hv heT
      obtain ⟨e1, e2⟩ := normalize_one_defaults today suffix i t hsF heF
      refine ⟨by rw [e1]; rfl, by rw [e2]; rfl, ?_⟩
      intro _ s e hs' he'
      rw [e1] at hs'
      rw [e2] at he'
      injection hs' with hss
      injection he' with hee
      subst hss
      subst hee
      exact start_plus2_lt_bump today hTIR hTys

/-- C4 witness: the 05:00 start-only task normalizes with both instants
present and `_end` strictly after `_start`. -/
theorem C4_normalization_invariant_witness :
    ((normalize_one c2today "s" 0 c2task5am)._start).isSome ∧
    ((normalize_one c2today "s" 0 c2task5am)._end).isSome ∧
    toMillis c2start5am
      < toMillis (⟨2024, 0, 12, 5, 0, 0, 0⟩ : JSDate) := by
  have h := C4_normalization_invariant c2today "s" 0 c2task5am
    (by refine ⟨by decide, ?_, rfl, rfl, rfl, rfl⟩; right; decide)
    (fun _ => ⟨c2start5am, rfl, by decide, by right; decide⟩)
    (fun hcontra => absurd hcontra (by decide))
  refine ⟨h.1, h.2.1, ?_⟩
  exact h.2.2 (Or.inl (by decide)) c2start5am ⟨2024, 0, 12, 5, 0, 0, 0⟩
    (by decide) (by decide)

/-- A task whose provided end (2024-01-05) precedes its start
(2024-01-10). -/
def c4invertedTask : RawTask :=
  { name := "a"
    start := .date c2startMid
    end_ := .date ⟨2024, 0, 5, 0, 0, 0, 0⟩
    dependencies := .undef
    id := none
    visible := none }

/-- C4 counterexample: an input end at 2024-01-05 with start 2024-01-10
survives normalization as `_end` = 2024-01-06 (bumped), which is strictly
BEFORE `_start` — the claimed invariant `_end > _start` fails. -/
theorem C4_inverted_counterexample :
    (normalize_one c2today "s" 0 c4invertedTask)._start = some c2startMid ∧
    (normalize_one c2today "s" 0 c4invertedTask)._end
      = some (⟨2024, 0, 6, 0, 0, 0, 0⟩ : JSDate) ∧
    toMillis (⟨2024, 0, 6, 0, 0, 0, 0⟩ : JSDate) < toMillis c2startMid := by
  refine ⟨by decide, by decide, by decide⟩

theorem truthy_of_parse_some (di : DateInput) (S : JSDate)
    (h : date_utils.parse di = some S) : di.truthy = true := by
  cases di with
  | undef => exact Option.noConfusion h
  | date d => rfl
  | str s =>
    cases hs : s.isEmpty
    · simp [DateInput.truthy, hs]
    · have hnil : s = [] := by simpa using hs
      subst hnil
      exact Option.noConfusion h

theorem normalize_one_start_field (today : JSDate) (suffix : String) (i : Int)
    (t : RawTask) : (normalize_one today suffix i t).start = t.start := rfl

theorem normalize_one_end_field (today : JSDate) (suffix : String) (i : Int)
    (t : RawTask) :
    (normalize_one today suffix i t).end_ = rawEndAfterTenYear t := rfl

theorem normalize_one_sval (today : JSDate) (suffix : String) (i : Int)
    (t : RawTask) :
    (normalize_one today suffix i t)._start = normStartVal today t := rfl

theorem normalize_one_eval_end (today : JSDate) (suffix : String) (i : Int)
    (t : RawTask) :
    (normalize_one today suffix i t)._end = normEndVal today t := rfl

theorem normalize_one_visible_field (today : JSDate) (suffix : String)
    (i : Int) (t : RawTask) :
    (normalize_one today suffix i t).visible = t.visible := rfl

theorem normalize_one_id_isSome (today : JSDate) (suffix : String) (i : Int)
    (t : RawTask) : ((normalize_one today suffix i t).id).isSome = true := by
  rcases ht : t.id with _ | v <;> simp [normalize_one, ht]

theorem normalize_one_id_of_some (today : JSDate) (suffix : String) (i : Int)
    (t : RawTask) (v : String) (h : t.id = some v) :
    (normalize_one today suffix i t).id = some v := by
  simp [normalize_one, h]

/-- A normalized task never triggers the ten-year rule again: either the
rule already fired (its raw end is now null), or it did not fire on the
same raw fields. -/
theorem tenYearB_normalize_eq_false (today : JSDate) (suffix : String)
    (i : Int) (t : RawTask) :
    tenYearB (normalize_one today suffix i t) = false := by
  cases h10 : tenYearB t with
  | false =>
    have he : (normalize_one today suffix i t).end_ = t.end_ := by
      rw [normalize_one_end_field]
      simp [rawEndAfterTenYear, h10]
    unfold tenYearB
    rw [he, normalize_one_start_field]
    unfold tenYearB at h10
    exact h10
  | true =>
    have he : (normalize_one today suffix i t).end_ = .undef := by
      rw [normalize_one_end_field]
      simp [rawEndAfterTenYear, h10]
    unfold tenYearB
    rw [he]
    rfl

theorem rawEnd_normalize (today : JSDate) (suffix : String) (i : Int)
    (t : RawTask) :
    rawEndAfterTenYear (normalize_one today suffix i t)
      = (normalize_one today suffix i t).end_ := by
  simp [rawEndAfterTenYear, tenYearB_normalize_eq_false]

/-- Re-normalizing recomputes the same `_start`. -/
theorem normStartVal_idem (today : JSDate) (suffix : String) (i : Int)
    (t : RawTask) :
    normStartVal today (normalize_one today suffix i t)
      = normStartVal today t := by
  cases h10 : tenYearB t with
  | false =>
    have he : rawEndAfterTenYear t = t.end_ := by
      simp [rawEndAfterTenYear, h10]
    have heu : (normalize_one today suffix i t).end_ = t.end_ := by
      rw [normalize_one_end_field, he]
    unfold normStartVal
    rw [rawEnd_normalize, heu, normalize_one_start_field, he]
  | true =>
    have he : rawEndAfterTenYear t = .undef := by
      simp [rawEndAfterTenYear, h10]
    have heu : (normalize_one today suffix i t).end_ = .undef := by
      rw [normalize_one_end_field, he]
    obtain ⟨E, S, hpE, hpS⟩ : ∃ E S, date_utils.parse t.end_ = some E ∧
        date_utils.parse t.start = some S := by
      unfold tenYearB at h10
      rcases hpE : date_utils.parse t.end_ with _ | E <;>
        rcases hpS : date_utils.parse t.start with _ | S <;>
          rw [hpE, hpS] at h10 <;> simp at h10 <;> exact ⟨E, S, rfl, rfl⟩
    have hsT : t.start.truthy = true := truthy_of_parse_some _ _ hpS
    unfold normStartVal
    rw [rawEnd_normalize, heu, normalize_one_start_field, he]
    simp [hsT, DateInput.truthy_undef]

/-- Re-normalizing recomputes the same `_end`. -/
theorem normEndVal_idem (today : JSDate) (suffix : String) (i : Int)
    (t : RawTask) :
    normEndVal today (normalize_one today suffix i t) = normEndVal today t := by
  cases h10 : tenYearB t with
  | false =>
    have he : rawEndAfterTenYear t = t.end_ := by
      simp [rawEndAfterTenYear, h10]
    have heu : (normalize_one today suffix i t).end_ = t.end_ := by
      rw [normalize_one_end_field, he]
    unfold normEndVal
    rw [rawEnd_normalize, heu, normalize_one_start_field, he,
      normStartVal_idem]
  | true =>
    have he : rawEndAfterTenYear t = .undef := by
      simp [rawEndAfterTenYear, h10]
    have heu : (normalize_one today suffix i t).end_ = .undef := by
      rw [normalize_one_end_field, he]
    obtain ⟨E, S, hpE, hpS⟩ : ∃ E S, date_utils.parse t.end_ = some E ∧
        date_utils.parse t.start = some S := by
      unfold tenYearB at h10
      rcases hpE : date_utils.parse t.end_ with _ | E <;>
        rcases hpS : date_utils.parse t.start with _ | S <;>
          rw [hpE, hpS] at h10 <;> simp at h10 <;> exact ⟨E, S, rfl, rfl⟩
    have hsT : t.start.truthy = true := truthy_of_parse_some _ _ hpS
    unfold normEndVal
    rw [rawEnd_normalize, heu, normalize_one_start_field, he,
      normStartVal_idem]
    simp [hsT, DateInput.truthy_undef]

/-- The fields the claim compares. -/
def normProj (t : RawTask) :
    Option JSDate × Option JSDate × Option String :=
  (t._start, t._end, t.id)

theorem normalize_one_idem (today : JSDate) (suffix : String) (i j : Int)
    (t : RawTask) :
    normProj (normalize_one today suffix j (normalize_one today suffix i t))
      = normProj (normalize_one today suffix i t) := by
  unfold normProj
  simp only [Prod.mk.injEq]
  refine ⟨?_, ?_, ?_⟩
  · rw [normalize_one_sval, normStartVal_idem, normalize_one_sval]
  · rw [normalize_one_eval_end, normEndVal_idem, normalize_one_eval_end]
  · obtain ⟨v, hv⟩ := Option.isSome_iff_exists.mp
      (normalize_one_id_isSome today suffix i t)
    rw [normalize_one_id_of_some today suffix j _ v hv, hv]

theorem setup_tasks_go_idem (today : JSDate) (suffix : String)
    (ts : List RawTask) :
    ∀ i j : Int,
      (setup_tasks_go today suffix j (setup_tasks_go today suffix i ts)).map
          normProj
        = (setup_tasks_go today suffix i ts).map normProj := by
  induction ts with
  | nil => intro i j; rfl
  | cons t ts ih =>
    intro i j
    by_cases hv : t.isVisible
    · have hvu : (normalize_one today suffix i t).isVisible = true := by
        unfold RawTask.isVisible
        rw [normalize_one_visible_field]
        exact hv
      simp only [setup_tasks_go, hv, if_true, hvu, List.map_cons]
      exact congrArg₂ _ (normalize_one_idem today suffix i j t) (ih (i + 1) (j + 1))
    · have hv' : t.isVisible = false := by
        cases hvv : t.isVisible
        · rfl
        · exact absurd hvv hv
      simp only [setup_tasks_go, hv', Bool.false_eq_true, if_false,
        List.map_cons]
      exact congrArg _ (ih i j)

/-- C6: re-running `setup_tasks` on an already-normalized task list (same
day, so the same `today`) reproduces the same `_start`, `_end` and `id`
on every task. -/
theorem C6_normalization_idempotent (today : JSDate) (suffix : String)
    (tasks : List RawTask) :
    (setup_tasks today suffix (setup_tasks today suffix tasks)).map normProj
      = (setup_tasks today suffix tasks).map normProj :=
  setup_tasks_go_idem today suffix tasks 0 0

theorem natToCharsGo_succ (f n : Nat) :
    natToCharsGo (f + 1) n = if n < 10 then [Char.ofNat (48 + n)]
      else natToCharsGo f (n / 10) ++ [Char.ofNat (48 + n % 10)] := rfl

/-- `natToCharsGo` ignores extra fuel once the fuel covers every digit. -/
theorem natToCharsGo_add (f k n : Nat) (h : n < 10 ^ f) (hf : 1 ≤ f) :
    natToCharsGo (f + k) n = natToCharsGo f n := by
  induction f generalizing n with
  | zero => exact absurd hf (by omega)
  | succ f ih =>
    have e1 : f + 1 + k = (f + k) + 1 := by omega
    by_cases h10 : n < 10
    · rw [e1, natToCharsGo_succ, natToCharsGo_succ, if_pos h10, if_pos h10]
    · rw [e1, natToCharsGo_succ, natToCharsGo_succ, if_neg h10, if_neg h10]
      have hf' : 1 ≤ f := by
        rcases Nat.eq_zero_or_pos f with h0 | h1
        · subst h0; norm_num at h; omega
        · exact h1
      have hn' : n / 10 < 10 ^ f := by
        have hp : 10 ^ (f + 1) = 10 ^ f * 10 := pow_succ 10 f
        omega
      rw [ih (n / 10) hn' hf']

theorem natToChars_eq_go (f n : Nat) (h : n < 10 ^ f) (hf : 1 ≤ f)
    (hn : f ≤ n + 1) : natToChars n = natToCharsGo f n := by
  unfold natToChars
  have e : n + 1 = f + (n + 1 - f) := by omega
  rw [e, natToCharsGo_add f (n + 1 - f) n h hf]

theorem natToChars_one_digit (n : Nat) (h : n < 10) :
    natToChars n = [Char.ofNat (48 + n)] := by
  rw [natToChars_eq_go 1 n (by simpa using h) (by omega) (by omega)]
  rw [show (1 : Nat) = 0 + 1 from rfl, natToCharsGo_succ, if_pos h]

theorem natToChars_two_digit (n : Nat) (h1 : 10 ≤ n) (h2 : n < 100) :
    natToChars n = [Char.ofNat (48 + n / 10), Char.ofNat (48 + n % 10)] := by
  rw [natToChars_eq_go 2 n (by norm_num; omega) (by omega) (by omega)]
  rw [show (2 : Nat) = 1 + 1 from rfl, natToCharsGo_succ, if_neg (by omega)]
  rw [show (1 : Nat) = 0 + 1 from rfl, natToCharsGo_succ,
    if_pos (by omega : n / 10 < 10)]
  rfl

theorem natToChars_four_digit (n : Nat) (h1 : 1000 ≤ n) (h2 : n < 10000) :
    natToChars n = [Char.ofNat (48 + n / 1000), Char.ofNat (48 + n / 100 % 10),
      Char.ofNat (48 + n / 10 % 10), Char.ofNat (48 + n % 10)] := by
  rw [natToChars_eq_go 4 n (by norm_num; omega) (by omega) (by omega)]
  rw [show (4 : Nat) = 3 + 1 from rfl, natToCharsGo_succ, if_neg (by omega)]
  rw [show (3 : Nat) = 2 + 1 from rfl, natToCharsGo_succ, if_neg (by omega)]
  rw [show (2 : Nat) = 1 + 1 from rfl, natToCharsGo_succ, if_neg (by omega)]
  rw [show (1 : Nat) = 0 + 1 from rfl, natToCharsGo_succ,
    if_pos (by omega : n / 10 / 10 / 10 < 10)]
  have e1 : n / 10 / 10 / 10 = n / 1000 := by omega
  have e2 : n / 10 / 10 % 10 = n / 100 % 10 := by omega
  rw [e1, e2]
  rfl

theorem intToChars_nonneg (i : Int) (h : 0 ≤ i) :
    intToChars i = natToChars i.toNat := by
  unfold intToChars
  rw [if_neg (by omega)]

theorem isDigit_ofNat (k : Nat) (h : k < 10) :
    (Char.ofNat (48 + k)).isDigit = true := by
  interval_cases k <;> decide

theorem digitVal_ofNat (k : Nat) (h : k < 10) :
    digitVal (Char.ofNat (48 + k)) = (k : Int) := by
  interval_cases k <;> decide

theorem digit_beq_space (k : Nat) (h : k < 10) :
    (Char.ofNat (48 + k) == ' ') = false := by
  interval_cases k <;> decide

theorem digit_beq_dash (k : Nat) (h : k < 10) :
    (Char.ofNat (48 + k) == '-') = false := by
  interval_cases k <;> decide

theorem jsSplitP_no_sep (p : Char → Bool) (l : List Char)
    (h : ∀ x ∈ l, p x = false) : jsSplitP p l = [l] := by
  induction l with
  | nil => rfl
  | cons a l ih =>
    have ha : p a = false := h a (by simp)
    have ih' := ih (fun x hx => h x (by simp [hx]))
    unfold jsSplitP
    rw [if_neg (by simp [ha]), ih']

/-- Splitting an appended list at its first separator. -/
theorem jsSplitP_append (p : Char → Bool) (l1 : List Char) (c : Char)
    (l2 : List Char) (h1 : ∀ x ∈ l1, p x = false) (hc : p c = true) :
    jsSplitP p (l1 ++ c :: l2) = l1 :: jsSplitP p l2 := by
  induction l1 with
  | nil =>
    show jsSplitP p (c :: l2) = [] :: jsSplitP p l2
    simp only [jsSplitP]
    rw [if_pos hc]
  | cons a l1 ih =>
    have ha : p a = false := h1 a (by simp)
    have ih' := ih (fun x hx => h1 x (by simp [hx]))
    show jsSplitP p (a :: (l1 ++ c :: l2)) = (a :: l1) :: jsSplitP p l2
    simp only [jsSplitP]
    rw [if_neg (by simp [ha]), ih']

theorem jsParseInt_four (a b c e : Nat) (ha : a < 10) (hb : b < 10)
    (hc : c < 10) (he : e < 10) :
    jsParseInt [Char.ofNat (48 + a), Char.ofNat (48 + b), Char.ofNat (48 + c),
        Char.ofNat (48 + e)]
      = some ((a : Int) * 1000 + (b : Int) * 100 + (c : Int) * 10 + (e : Int)) := by
  simp only [jsParseInt, List.takeWhile, isDigit_ofNat a ha, isDigit_ofNat b hb,
    isDigit_ofNat c hc, isDigit_ofNat e he, List.isEmpty_cons, List.foldl,
    digitVal_ofNat a ha, digitVal_ofNat b hb, digitVal_ofNat c hc,
    digitVal_ofNat e he, Bool.false_eq_true, if_false, Option.some.injEq]
  ring

theorem jsParseInt_two (p q : Nat) (hp : p < 10) (hq : q < 10) :
    jsParseInt [Char.ofNat (48 + p), Char.ofNat (48 + q)]
      = some ((p : Int) * 10 + (q : Int)) := by
  simp only [jsParseInt, List.takeWhile, isDigit_ofNat p hp, isDigit_ofNat q hq,
    List.isEmpty_cons, List.foldl, digitVal_ofNat p hp, digitVal_ofNat q hq,
    Bool.false_eq_true, if_false, Option.some.injEq]
  ring

theorem newDateFromVals_three (Y M D : Int) :
    newDateFromVals [some Y, some M, some D] = some (newDate Y M D 0 0 0 0) := rfl

/-- `parse_string` on a zero-padded date string given by its eight digits. -/
theorem parse_string_digits (a b c e p q r s : Nat)
    (ha : a < 10) (hb : b < 10) (hc : c < 10) (he : e < 10)
    (hp : p < 10) (hq : q < 10) (hr : r < 10) (hs : s < 10) :
    date_utils.parse_string
        ([Char.ofNat (48 + a), Char.ofNat (48 + b), Char.ofNat (48 + c),
          Char.ofNat (48 + e)]
          ++ Char.ofNat 45 ::
            ([Char.ofNat (48 + p), Char.ofNat (48 + q)]
              ++ Char.ofNat 45 ::
                [Char.ofNat (48 + r), Char.ofNat (48 + s)]))
      = some (newDate ((a : Int) * 1000 + (b : Int) * 100 + (c : Int) * 10 + (e : Int))
          ((p : Int) * 10 + (q : Int) - 1) ((r : Int) * 10 + (s : Int)) 0 0 0 0) := by
  have hY : ∀ x ∈ [Char.ofNat (48 + a), Char.ofNat (48 + b), Char.ofNat (48 + c),
      Char.ofNat (48 + e)], (x == '-') = false := by
    intro x hx
    simp only [List.mem_cons, List.not_mem_nil, or_false] at hx
    rcases hx with rfl | rfl | rfl | rfl
    · exact digit_beq_dash a ha
    · exact digit_beq_dash b hb
    · exact digit_beq_dash c hc
    · exact digit_beq_dash e he
  have hM : ∀ x ∈ [Char.ofNat (48 + p), Char.ofNat (48 + q)],
      (x == '-') = false := by
    intro x hx
    simp only [List.mem_cons, List.not_mem_nil, or_false] at hx
    rcases hx with rfl | rfl
    · exact digit_beq_dash p hp
    · exact digit_beq_dash q hq
  have hD : ∀ x ∈ [Char.ofNat (48 + r), Char.ofNat (48 + s)],
      (x == '-') = false := by
    intro x hx
    simp only [List.mem_cons, List.not_mem_nil, or_false] at hx
    rcases hx with rfl | rfl
    · exact digit_beq_dash r hr
    · exact digit_beq_dash s hs
  have hspace : ∀ x ∈ ([Char.ofNat (48 + a), Char.ofNat (48 + b),
      Char.ofNat (48 + c), Char.ofNat (48 + e)]
        ++ Char.ofNat 45 ::
          ([Char.ofNat (48 + p), Char.ofNat (48 + q)]
            ++ Char.ofNat 45 ::
              [Char.ofNat (48 + r), Char.ofNat (48 + s)])),
      (x == ' ') = false := by
    intro x hx
    simp only [List.mem_append, List.mem_cons, List.not_mem_nil, or_false] at hx
    rcases hx with (rfl | rfl | rfl | rfl) | rfl | (rfl | rfl) | rfl | rfl | rfl
    · exact digit_beq_space a ha
    · exact digit_beq_space b hb
    · exact digit_beq_space c hc
    · exact digit_beq_space e he
    · decide
    · exact digit_beq_space p hp
    · exact digit_beq_space q hq
    · decide
    · exact digit_beq_space r hr
    · exact digit_beq_space s hs
  have hsp := jsSplitP_no_sep (fun ch => ch == ' ') _ hspace
  have hda : jsSplitP (fun ch => ch == '-')
      ([Char.ofNat (48 + a), Char.ofNat (48 + b), Char.ofNat (48 + c),
        Char.ofNat (48 + e)]
        ++ Char.ofNat 45 ::
          ([Char.ofNat (48 + p), Char.ofNat (48 + q)]
            ++ Char.ofNat 45 ::
              [Char.ofNat (48 + r), Char.ofNat (48 + s)]))
      = [[Char.ofNat (48 + a), Char.ofNat (48 + b), Char.ofNat (48 + c),
          Char.ofNat (48 + e)],
         [Char.ofNat (48 + p), Char.ofNat (48 + q)],
         [Char.ofNat (48 + r), Char.ofNat (48 + s)]] := by
    rw [jsSplitP_append _ _ _ _ hY (by decide),
      jsSplitP_append _ _ _ _ hM (by decide),
      jsSplitP_no_sep _ _ hD]
  simp only [date_utils.parse_string, hsp, List.headD_cons, hda, List.map_cons,
    List.map_nil, jsParseInt_four a b c e ha hb hc he,
    jsParseInt_two p q hp hq, jsParseInt_two r s hr hs,
    List.getD_cons_zero, List.getD_cons_succ, Option.map_some]
  norm_num [newDateFromVals_three]

/-- The zero-padded `YYYY-MM-DD` rendering of a civil date, exactly as
`to_string` builds its date part. -/
def dateChars (y m d : Int) : List Char :=
  padStart (intToChars y) 4 (Char.ofNat 48)
    ++ Char.ofNat 45 :: padStart (intToChars m) 2 (Char.ofNat 48)
    ++ Char.ofNat 45 :: padStart (intToChars d) 2 (Char.ofNat 48)

theorem padStart_of_length_le (s : List Char) (t : Nat) (c : Char)
    (h : t ≤ s.length) : padStart s t c = s := by
  unfold padStart
  by_cases he : t < s.length
  · rw [if_pos he]
  · rw [if_neg he, show t - s.length = 0 from by omega]
    rfl

theorem padded_two (v : Int) (h1 : 1 ≤ v) (h2 : v ≤ 99) :
    padStart (intToChars v) 2 (Char.ofNat 48)
      = [Char.ofNat (48 + v.toNat / 10), Char.ofNat (48 + v.toNat % 10)] := by
  rw [intToChars_nonneg v (by omega)]
  by_cases h10 : v.toNat < 10
  · rw [natToChars_one_digit _ h10]
    rw [show v.toNat / 10 = 0 from by omega,
      show v.toNat % 10 = v.toNat from by omega]
    rfl
  · rw [natToChars_two_digit _ (by omega) (by omega)]
    exact padStart_of_length_le _ _ _ (by simp)

theorem padded_year (v : Int) (h1 : 1000 ≤ v) (h2 : v ≤ 9999) :
    padStart (intToChars v) 4 (Char.ofNat 48)
      = [Char.ofNat (48 + v.toNat / 1000), Char.ofNat (48 + v.toNat / 100 % 10),
         Char.ofNat (48 + v.toNat / 10 % 10), Char.ofNat (48 + v.toNat % 10)] := by
  rw [intToChars_nonneg v (by omega), natToChars_four_digit _ (by omega) (by omega)]
  exact padStart_of_length_le _ _ _ (by simp)

theorem padded_year_two (v : Int) (h1 : 1000 ≤ v) (h2 : v ≤ 9999) :
    padStart (intToChars v) 2 (Char.ofNat 48)
      = padStart (intToChars v) 4 (Char.ofNat 48) := by
  rw [intToChars_nonneg v (by omega), natToChars_four_digit _ (by omega) (by omega)]
  rw [padStart_of_length_le _ _ _ (by simp), padStart_of_length_le _ _ _ (by simp)]

theorem dateChars_digits (y m d : Int) (hy1 : 1000 ≤ y) (hy2 : y ≤ 9999)
    (hm1 : 1 ≤ m) (hm2 : m ≤ 12) (hd1 : 1 ≤ d) (hd2 : d ≤ 31) :
    dateChars y m d
      = [Char.ofNat (48 + y.toNat / 1000), Char.ofNat (48 + y.toNat / 100 % 10),
         Char.ofNat (48 + y.toNat / 10 % 10), Char.ofNat (48 + y.toNat % 10)]
        ++ Char.ofNat 45 ::
          ([Char.ofNat (48 + m.toNat / 10), Char.ofNat (48 + m.toNat % 10)]
            ++ Char.ofNat 45 ::
              [Char.ofNat (48 + d.toNat / 10), Char.ofNat (48 + d.toNat % 10)]) := by
  unfold dateChars
  rw [padded_year y hy1 hy2, padded_two m (by omega) (by omega),
    padded_two d (by omega) (by omega)]
  simp [List.append_assoc]

theorem to_string_date (y m d : Int) (hy1 : 1000 ≤ y) (hy2 : y ≤ 9999) :
    date_utils.to_string ⟨y, m - 1, d, 0, 0, 0, 0⟩ false = dateChars y m d := by
  have hMM : m - 1 + 1 = m := by omega
  have e : date_utils.to_string ⟨y, m - 1, d, 0, 0, 0, 0⟩ false
      = padStart (intToChars y) 2 (Char.ofNat 48)
        ++ Char.ofNat 45 :: padStart (intToChars (m - 1 + 1)) 2 (Char.ofNat 48)
        ++ Char.ofNat 45 :: padStart (intToChars d) 2 (Char.ofNat 48) := rfl
  rw [e, hMM]
  unfold dateChars
  rw [padded_year_two y hy1 hy2]

/-- Every month length in the table is at most 31. -/
theorem daysInMonthYM_le_31 (y m : Int) : daysInMonthYM y m ≤ 31 := by
  unfold daysInMonthYM
  repeat' split
  all_goals omega

/-- C10: for a zero-padded `YYYY-MM-DD` string with a four-digit year in
1000..9999 denoting a valid Gregorian date, `to_string` of `parse` (with
`with_time` false) returns the string unchanged. -/
theorem C10_parse_to_string_round_trip (y m d : Int)
    (hy1 : 1000 ≤ y) (hy2 : y ≤ 9999) (hm1 : 1 ≤ m) (hm2 : m ≤ 12)
    (hd1 : 1 ≤ d) (hd2 : d ≤ daysInMonthYM y (m - 1)) :
    (date_utils.parse (.str (dateChars y m d))).map
        (fun D => date_utils.to_string D false)
      = some (dateChars y m d) := by
  have hd31 : d ≤ 31 := le_trans hd2 (daysInMonthYM_le_31 y (m - 1))
  have hparse : date_utils.parse (.str (dateChars y m d))
      = some (⟨y, m - 1, d, 0, 0, 0, 0⟩ : JSDate) := by
    show date_utils.parse_string (dateChars y m d) = _
    rw [dateChars_digits y m d hy1 hy2 hm1 hm2 hd1 hd31]
    rw [parse_string_digits (y.toNat / 1000) (y.toNat / 100 % 10)
      (y.toNat / 10 % 10) (y.toNat % 10) (m.toNat / 10) (m.toNat % 10)
      (d.toNat / 10) (d.toNat % 10) (by omega) (by omega) (by omega) (by omega)
      (by omega) (by omega) (by omega) (by omega)]
    have eY : ((y.toNat / 1000 : Nat) : Int) * 1000
        + ((y.toNat / 100 % 10 : Nat) : Int) * 100
        + ((y.toNat / 10 % 10 : Nat) : Int) * 10
        + ((y.toNat % 10 : Nat) : Int) = y := by omega
    have eM : ((m.toNat / 10 : Nat) : Int) * 10 + ((m.toNat % 10 : Nat) : Int) - 1
        = m - 1 := by omega
    have eD : ((d.toNat / 10 : Nat) : Int) * 10 + ((d.toNat % 10 : Nat) : Int)
        = d := by omega
    rw [eY, eM, eD]
    rw [newDate_eq_of_in_range y (m - 1) d 0 0 0 0 (by omega) (by omega)
      (by omega) hd1 hd2 (by norm_num) (by norm_num) (by norm_num) (by norm_num)
      (by norm_num) (by norm_num) (by norm_num) (by norm_num)]
  rw [hparse]
  show some (date_utils.to_string (⟨y, m - 1, d, 0, 0, 0, 0⟩ : JSDate) false)
    = some (dateChars y m d)
  rw [to_string_date y m d hy1 hy2]

/-- Witness: the concrete string 2024-01-10 round-trips unchanged. -/
theorem C10_parse_to_string_round_trip_witness :
    (date_utils.parse (.str (dateChars 2024 1 10))).map
        (fun D => date_utils.to_string D false)
      = some (dateChars 2024 1 10) :=
  C10_parse_to_string_round_trip 2024 1 10 (by decide) (by decide) (by decide)
    (by decide) (by decide) (by decide)

/-- Counterexample to the unrestricted claim: a zero-padded year below 100
hits the constructor's 1900 offset, so 0045-01-05 comes back as
1945-01-05, not unchanged. -/
theorem C10_two_digit_year_counterexample :
    (date_utils.parse (.str (dateChars 45 1 5))).map
        (fun D => date_utils.to_string D false)
      = some (dateChars 1945 1 5)
    ∧ dateChars 1945 1 5 ≠ dateChars 45 1 5 := by decide

end Gantt
